import Mathlib

/-!
# NATTEN: 3D binding entry points and the 2D inverse-neighborhood CPU kernel

A shallow embedding of

* `src/natten/csrc/natten3dav.h`      (`natten3dav_forward`, `natten3dav_backward`),
* `src/natten/csrc/natten3dqkrpb.h`   (`natten3dqkrpb_forward`, `natten3dqkrpb_backward`),
* `src/natten/csrc/cpu/inverse_neighborhood_2d.cpp` (`inverse_neighborhood_2d`),

followed by the theorems about them.

Conventions.

* A C++ `int` is a Lean `Int`; every conversion of a wider value to `int`
  is written `toInt32` (two's complement wrap to 32 bits).  64-bit
  arithmetic on sizes and strides is taken exactly.
* C++ `/` and `%` on `int` truncate towards zero: `Int.tdiv`, `Int.tmod`.
* The binding headers only look at tensor metadata, so a `torch::Tensor`
  is its list of sizes, its contiguity flag, its device flag and whether
  its scalar type is `Half`.
* The backend functions (`*_cpu_*`, `*_cuda_*`) are declared but not
  defined in the headers; a call to one of them is recorded as a value of
  type `Call` carrying the arguments in call order.
* `WITH_CUDA` and `NDEBUG` are compile-time switches: `Build`.
-/

namespace natten

/-! ## Machine integers -/

/-- Conversion of an integer value to a 32-bit `int` (two's complement wrap). -/
def toInt32 (x : Int) : Int :=
  (x + 2147483648) % 4294967296 - 2147483648

/-! ## Binding layer (`natten3dav.h`, `natten3dqkrpb.h`) -/

/-- The metadata of a `torch::Tensor` that the bindings inspect. -/
structure Tensor where
  /-- The value of `x.size(k)` is the `k`-th entry; `size(k)` throws when `k` is out of range. -/
  sizes : List Nat
  /-- The flag `x.is_contiguous()`. -/
  is_contiguous : Bool
  /-- The flag `x.device().is_cuda()`. -/
  is_cuda : Bool
  /-- Whether `x.scalar_type()` is `at::ScalarType::Half`. -/
  is_half : Bool
deriving DecidableEq, Repr

/-- Compile-time configuration of the extension. -/
structure Build where
  /-- The switch `WITH_CUDA` is defined. -/
  with_cuda : Bool
  /-- The switch `NDEBUG` is defined, so `assert(e)` expands to nothing. -/
  ndebug : Bool
deriving DecidableEq, Repr

/-- A call to one of the backend functions declared in the two headers,
with its arguments in call order. -/
inductive Call where
  | natten3dav_cpu_forward (attn value : Tensor)
      (kernel_size_d kernel_size dilation_d dilation : Int)
  | natten3dav_cpu_backward (d_out attn value : Tensor)
      (kernel_size_d kernel_size dilation_d dilation : Int)
  | natten3dav_cuda_forward (attn value : Tensor)
      (kernel_size_d kernel_size dilation_d dilation : Int)
  | natten3dav_cuda_forward_fp16 (attn value : Tensor)
      (kernel_size_d kernel_size dilation_d dilation : Int)
  | natten3dav_cuda_backward (d_out attn value : Tensor)
      (kernel_size_d kernel_size dilation_d dilation : Int)
  | natten3dav_cuda_backward_fp16 (d_out attn value : Tensor)
      (kernel_size_d kernel_size dilation_d dilation : Int)
  | natten3dqkrpb_cpu_forward (query key : Tensor) (rpb : Option Tensor)
      (kernel_size_d kernel_size dilation_d dilation : Int)
  | natten3dqkrpb_cpu_backward (d_attn query key : Tensor) (biasEnabled : Bool)
      (kernel_size_d kernel_size dilation_d dilation : Int)
  | natten3dqkrpb_cuda_forward (query key : Tensor) (rpb : Option Tensor)
      (kernel_size_d kernel_size dilation_d dilation : Int)
  | natten3dqkrpb_cuda_forward_fp16 (query key : Tensor) (rpb : Option Tensor)
      (kernel_size_d kernel_size dilation_d dilation : Int)
  | natten3dqkrpb_cuda_backward (d_attn query key : Tensor) (biasEnabled : Bool)
      (kernel_size_d kernel_size dilation_d dilation : Int)
  | natten3dqkrpb_cuda_backward_fp16 (d_attn query key : Tensor) (biasEnabled : Bool)
      (kernel_size_d kernel_size dilation_d dilation : Int)
deriving DecidableEq, Repr

/-- How a call of an entry point ends. -/
inductive Outcome where
  /-- A `TORCH_CHECK` failed and threw with this message. -/
  | torch_check_failed (msg : String)
  /-- An `assert` failed (abort). -/
  | assertion_failed
  /-- A `size(k)` was asked of a tensor with at most `k` dimensions (throws). -/
  | index_out_of_range
  /-- The statement `AT_ERROR(msg)` was reached. -/
  | at_error (msg : String)
  /-- The entry point returned the result of this backend call. -/
  | returned (c : Call)
deriving DecidableEq, Repr

/-- The message of the `AT_ERROR` in the branch without `WITH_CUDA`. -/
def not_compiled_with_cuda : String :=
  "NATTEN is not compiled with CUDA! Please make sure you installed correctly by referring to shi-labs.com/natten."

/-- The expression `int(sqrt(n))` for a tensor size `n` below `2 ^ 52`: such an
`n` is a double, its correctly rounded double square root lies in
`[isqrt n, isqrt n + 1)`, and the conversion to `int` truncates it to the
integer square root.  From about `2 ^ 52` on the rounded root can reach the
next integer, so the code is modelled for sizes below `2 ^ 52` only; the
theorems about tensors of unknown size assume that bound. -/
def int_sqrt (n : Nat) : Int :=
  toInt32 (Nat.sqrt n)

/-- The outcome of `natten3dav_forward` (natten3dav.h, lines 94-116). -/
def natten3dav_forward (bld : Build) (attn value : Tensor)
    (kernel_size_d kernel_size dilation_d dilation : Int) : Outcome :=
  -- CHECK_CONTIGUOUS(attn); CHECK_CONTIGUOUS(value);
  if !attn.is_contiguous then .torch_check_failed "attn must be contiguous"
  else if !value.is_contiguous then .torch_check_failed "value must be contiguous"
  -- assert(int(sqrt(attn.size(5))) == kernel_size);
  else if !bld.ndebug && attn.sizes.length ≤ 5 then .index_out_of_range
  else if !bld.ndebug && int_sqrt (attn.sizes.getD 5 0) != kernel_size then .assertion_failed
  -- assert(attn.device().is_cuda() == value.device().is_cuda());
  else if !bld.ndebug && attn.is_cuda != value.is_cuda then .assertion_failed
  else if attn.is_cuda then
    if bld.with_cuda then
      if value.is_half then
        .returned (.natten3dav_cuda_forward_fp16 attn value kernel_size_d kernel_size dilation_d dilation)
      else
        .returned (.natten3dav_cuda_forward attn value kernel_size_d kernel_size dilation_d dilation)
    else .at_error not_compiled_with_cuda
  else
    .returned (.natten3dav_cpu_forward attn value kernel_size_d kernel_size dilation_d dilation)

/-- The outcome of `natten3dav_backward` (natten3dav.h, lines 118-142). -/
def natten3dav_backward (bld : Build) (d_out attn value : Tensor)
    (kernel_size_d kernel_size dilation_d dilation : Int) : Outcome :=
  -- CHECK_CONTIGUOUS(d_out); CHECK_CONTIGUOUS(attn); CHECK_CONTIGUOUS(value);
  if !d_out.is_contiguous then .torch_check_failed "d_out must be contiguous"
  else if !attn.is_contiguous then .torch_check_failed "attn must be contiguous"
  else if !value.is_contiguous then .torch_check_failed "value must be contiguous"
  -- assert(int(sqrt(attn.size(5))) == kernel_size);
  else if !bld.ndebug && attn.sizes.length ≤ 5 then .index_out_of_range
  else if !bld.ndebug && int_sqrt (attn.sizes.getD 5 0) != kernel_size then .assertion_failed
  -- assert(attn.device().is_cuda() == value.device().is_cuda()
  --        && d_out.device().is_cuda() == value.device().is_cuda());
  else if !bld.ndebug && !(attn.is_cuda == value.is_cuda && d_out.is_cuda == value.is_cuda) then
    .assertion_failed
  else if attn.is_cuda then
    if bld.with_cuda then
      if value.is_half then
        .returned (.natten3dav_cuda_backward_fp16 d_out attn value kernel_size_d kernel_size dilation_d dilation)
      else
        .returned (.natten3dav_cuda_backward d_out attn value kernel_size_d kernel_size dilation_d dilation)
    else .at_error not_compiled_with_cuda
  else
    .returned (.natten3dav_cpu_backward d_out attn value kernel_size_d kernel_size dilation_d dilation)

/-- The expression `int((rpb.value().size(1) + 1) / 2)`. -/
def rpb_kernel_size (r : Tensor) : Int :=
  toInt32 (Int.tdiv ((r.sizes.getD 1 0 : Nat) + 1) 2)

/-- The block `if (rpb.has_value()) { ... }` of `natten3dqkrpb_forward`
(natten3dqkrpb.h, lines 112-116): `none` when control leaves the block
normally, otherwise the failure raised inside it. -/
def rpb_block (bld : Build) (key : Tensor) (rpb : Option Tensor) (kernel_size : Int) :
    Option Outcome :=
  match rpb with
  | none => none
  | some r =>
    -- assert(rpb.value().device().is_cuda() == key.device().is_cuda());
    if !bld.ndebug && r.is_cuda != key.is_cuda then some .assertion_failed
    -- CHECK_CONTIGUOUS(rpb.value());
    else if !r.is_contiguous then some (.torch_check_failed "rpb.value() must be contiguous")
    -- assert(int((rpb.value().size(1) + 1) / 2) == kernel_size);
    else if !bld.ndebug && r.sizes.length ≤ 1 then some .index_out_of_range
    else if !bld.ndebug && rpb_kernel_size r != kernel_size then
      some .assertion_failed
    else none

/-- The outcome of `natten3dqkrpb_forward` (natten3dqkrpb.h, lines 100-128). -/
def natten3dqkrpb_forward (bld : Build) (query key : Tensor) (rpb : Option Tensor)
    (kernel_size_d kernel_size dilation_d dilation : Int) : Outcome :=
  -- CHECK_CONTIGUOUS(query); CHECK_CONTIGUOUS(key);
  if !query.is_contiguous then .torch_check_failed "query must be contiguous"
  else if !key.is_contiguous then .torch_check_failed "key must be contiguous"
  -- const int heads = query.size(1);
  else if query.sizes.length ≤ 1 then .index_out_of_range
  -- assert(query.device().is_cuda() == key.device().is_cuda());
  else if !bld.ndebug && query.is_cuda != key.is_cuda then .assertion_failed
  else match rpb_block bld key rpb kernel_size with
  | some failure => failure
  | none =>
    if query.is_cuda then
      if bld.with_cuda then
        if query.is_half then
          .returned (.natten3dqkrpb_cuda_forward_fp16 query key rpb kernel_size_d kernel_size dilation_d dilation)
        else
          .returned (.natten3dqkrpb_cuda_forward query key rpb kernel_size_d kernel_size dilation_d dilation)
      else .at_error not_compiled_with_cuda
    else
      .returned (.natten3dqkrpb_cpu_forward query key rpb kernel_size_d kernel_size dilation_d dilation)

/-- The outcome of `natten3dqkrpb_backward` (natten3dqkrpb.h, lines 130-154). -/
def natten3dqkrpb_backward (bld : Build) (d_attn query key : Tensor) (biasEnabled : Bool)
    (kernel_size_d kernel_size dilation_d dilation : Int) : Outcome :=
  -- CHECK_CONTIGUOUS(d_attn); CHECK_CONTIGUOUS(query); CHECK_CONTIGUOUS(key);
  if !d_attn.is_contiguous then .torch_check_failed "d_attn must be contiguous"
  else if !query.is_contiguous then .torch_check_failed "query must be contiguous"
  else if !key.is_contiguous then .torch_check_failed "key must be contiguous"
  -- assert(query.device().is_cuda() == key.device().is_cuda()
  --        && d_attn.device().is_cuda() == key.device().is_cuda());
  else if !bld.ndebug && !(query.is_cuda == key.is_cuda && d_attn.is_cuda == key.is_cuda) then
    .assertion_failed
  else if query.is_cuda then
    if bld.with_cuda then
      if query.is_half then
        .returned (.natten3dqkrpb_cuda_backward_fp16 d_attn query key biasEnabled kernel_size_d kernel_size dilation_d dilation)
      else
        .returned (.natten3dqkrpb_cuda_backward d_attn query key biasEnabled kernel_size_d kernel_size dilation_d dilation)
    else .at_error not_compiled_with_cuda
  else
    .returned (.natten3dqkrpb_cpu_backward d_attn query key biasEnabled kernel_size_d kernel_size dilation_d dilation)

/-- The failure a call ended with, `none` when a backend kernel was called. -/
def Outcome.failure : Outcome → Option Outcome
  | .returned _ => none
  | o => some o

/-- The backend function a call goes to, without its arguments. -/
def Call.kernel : Call → String
  | .natten3dav_cpu_forward .. => "natten3dav_cpu_forward"
  | .natten3dav_cpu_backward .. => "natten3dav_cpu_backward"
  | .natten3dav_cuda_forward .. => "natten3dav_cuda_forward"
  | .natten3dav_cuda_forward_fp16 .. => "natten3dav_cuda_forward_fp16"
  | .natten3dav_cuda_backward .. => "natten3dav_cuda_backward"
  | .natten3dav_cuda_backward_fp16 .. => "natten3dav_cuda_backward_fp16"
  | .natten3dqkrpb_cpu_forward .. => "natten3dqkrpb_cpu_forward"
  | .natten3dqkrpb_cpu_backward .. => "natten3dqkrpb_cpu_backward"
  | .natten3dqkrpb_cuda_forward .. => "natten3dqkrpb_cuda_forward"
  | .natten3dqkrpb_cuda_forward_fp16 .. => "natten3dqkrpb_cuda_forward_fp16"
  | .natten3dqkrpb_cuda_backward .. => "natten3dqkrpb_cuda_backward"
  | .natten3dqkrpb_cuda_backward_fp16 .. => "natten3dqkrpb_cuda_backward_fp16"

/-- The backend function whose result the entry point returned, `none` when
the call failed. -/
def Outcome.kernel : Outcome → Option String
  | .returned c => some c.kernel
  | _ => none

/-- The outcome is the result of some backend kernel. -/
def Outcome.dispatches : Outcome → Bool
  | .returned _ => true
  | _ => false

/-- The same tensor with other spatial extents: the sizes of axes 2, 3, 4 of
`[batch, heads, depth, height, width, last]` replaced. -/
def Tensor.with_extents (t : Tensor) (depth height width : Nat) : Tensor :=
  { t with sizes := ((t.sizes.set 2 depth).set 3 height).set 4 width }

/-- A contiguous CPU tensor of the given shape (not `Half`). -/
def cpu_tensor (sizes : List Nat) : Tensor :=
  ⟨sizes, true, false, false⟩

/-- A contiguous CUDA tensor of the given shape (not `Half`). -/
def cuda_tensor (sizes : List Nat) : Tensor :=
  ⟨sizes, true, true, false⟩

/-- A CPU tensor of the given shape that is not contiguous. -/
def strided_cpu_tensor (sizes : List Nat) : Tensor :=
  ⟨sizes, false, false, false⟩

/-- A CUDA tensor of the given shape that is not contiguous. -/
def strided_cuda_tensor (sizes : List Nat) : Tensor :=
  ⟨sizes, false, true, false⟩

/-! ## Window index helpers (`natten_cpu_commons.h`) -/

/-- Modelled from the spec: `get_window_start` is declared in
`natten_cpu_commons.h`, which is not among the sources; its argument order
is that of the call sites in `inverse_neighborhood_2d`.  Spec 4.1: the
forward window contains `index`, has exactly `KERNEL_SIZE` dilation-stepped
taps and is shifted, not shrunk, at the two boundaries.  If
`index - NEIGHBORHOOD_SIZE * dilation < 0` the window starts at the first
position of the dilation grid through `index` (position `0` when the
dilation is `1`; spec 8: taps `0, 2, 4` for position `0` with dilation `2`).
If `index + NEIGHBORHOOD_SIZE * dilation >= length` the window ends at the
last grid position below `length`, which keeps the last tap within bounds.
Otherwise it is centred on `index`. -/
def get_window_start (index length KERNEL_SIZE NEIGHBORHOOD_SIZE dilation : Int) : Int :=
  if index - NEIGHBORHOOD_SIZE * dilation < 0 then
    Int.tmod index dilation
  else if index + NEIGHBORHOOD_SIZE * dilation ≥ length then
    index + Int.tdiv (length - 1 - index) dilation * dilation - (KERNEL_SIZE - 1) * dilation
  else
    index - NEIGHBORHOOD_SIZE * dilation

/-- Modelled from the spec: `get_backward_window_start` is declared in
`natten_cpu_commons.h`, which is not among the sources; its argument order
(no length) is that of the call sites.  Spec 4.1: the backward window is
the clamped range of positions `q` whose forward window contains `index`.
A position in the first `KERNEL_SIZE` steps of its dilation grid is seen by
every shifted window down to the first grid position; any other position
is seen from `index - NEIGHBORHOOD_SIZE * dilation` on. -/
def get_backward_window_start (index KERNEL_SIZE NEIGHBORHOOD_SIZE dilation : Int) : Int :=
  if index < KERNEL_SIZE * dilation then Int.tmod index dilation
  else index - NEIGHBORHOOD_SIZE * dilation

/-- Modelled from the spec: `get_backward_window_end` is declared in
`natten_cpu_commons.h`, which is not among the sources; its argument order
is that of the call sites.  Spec 4.1: exclusive end of the clamped range of
positions `q` whose forward window contains `index`.  A position in the
last `KERNEL_SIZE` steps before `length` is seen by every shifted window up
to `length`; any other position is seen up to
`index + NEIGHBORHOOD_SIZE * dilation` inclusive. -/
def get_backward_window_end (index length KERNEL_SIZE NEIGHBORHOOD_SIZE dilation : Int) : Int :=
  if index ≥ length - KERNEL_SIZE * dilation then length
  else index + (NEIGHBORHOOD_SIZE + 1) * dilation

/-- The `KERNEL_SIZE` taps `start, start + dilation, ...` of the forward
window of `index`, in tap order. -/
def window_taps (index length KERNEL_SIZE NEIGHBORHOOD_SIZE dilation : Int) : List Int :=
  (List.range KERNEL_SIZE.toNat).map fun (t : Nat) =>
    get_window_start index length KERNEL_SIZE NEIGHBORHOOD_SIZE dilation + (t : Int) * dilation

/-! ## The kernel (`cpu/inverse_neighborhood_2d.cpp`) -/

/-- The values taken by `x` in `for (int x = 0; x < n; x++)`. -/
def upto (n : Int) : List Int :=
  (List.range n.toNat).map Int.ofNat

/-- The values taken by `x` in `for (int x = start; x < stop; x += step)`,
at most `fuel` of them. -/
def forStep : Nat → Int → Int → Int → List Int
  | 0, _, _, _ => []
  | fuel + 1, x, stop, step =>
    if x < stop then x :: forStep fuel (x + step) stop step else []

/-- The candidate producers visited by
`for (int xi = ni; xi < ei; xi += dilation)` at output coordinate `index`,
with `ni`, `ei` the backward window of `index`.  For `dilation >= 1` the loop
leaves by its own test within `ei - ni` rounds (`forStep_fuel_enough`). -/
def backward_candidates (index length KERNEL_SIZE NEIGHBORHOOD_SIZE dilation : Int) : List Int :=
  let ni := get_backward_window_start index KERNEL_SIZE NEIGHBORHOOD_SIZE dilation
  let ei := get_backward_window_end index length KERNEL_SIZE NEIGHBORHOOD_SIZE dilation
  forStep (ei - ni).toNat ni ei dilation

/-- An `at::TensorAccessor<scalar_t, 5>`: the buffer behind `data()`,
addressed by a flat index, and the strides `stride(k)`. -/
structure Tensor5D (R : Type) where
  /-- The element `data()[n]`. -/
  data : Int → R
  /-- The value `stride(k)`. -/
  stride : Nat → Int

/-- The element `T[b][h][i][j][d]` of the accessor. -/
def Tensor5D.get {R : Type} (T : Tensor5D R) (b h i j d : Int) : R :=
  T.data (b * T.stride 0 + h * T.stride 1 + i * T.stride 2 + j * T.stride 3 + d * T.stride 4)

/-- The strides of a contiguous tensor of shape `[n0, n1, n2, n3, n4]`. -/
def Tensor5D.IsContiguous {R : Type} (T : Tensor5D R) (n1 n2 n3 n4 : Int) : Prop :=
  T.stride 0 = n1 * n2 * n3 * n4 ∧ T.stride 1 = n2 * n3 * n4 ∧ T.stride 2 = n3 * n4 ∧
    T.stride 3 = n4 ∧ T.stride 4 = 1

instance {R : Type} (T : Tensor5D R) (n1 n2 n3 n4 : Int) :
    Decidable (T.IsContiguous n1 n2 n3 n4) := by
  unfold Tensor5D.IsContiguous; infer_instance

/-- Line 75: `const int weightsOffset = b * weights.stride(0) + h * weights.stride(1);` -/
def weightsOffset {R : Type} (weights : Tensor5D R) (b h : Int) : Int :=
  toInt32 (b * weights.stride 0 + h * weights.stride 1)

/-- Line 76: `const int outOffset = b * values.stride(0) + h * values.stride(1) + d;` -/
def outOffset {R : Type} (values : Tensor5D R) (b h d : Int) : Int :=
  toInt32 (b * values.stride 0 + h * values.stride 1 + d)

/-- Line 82: `const int outIndex = outOffset + xi * values.stride(2) + xj * values.stride(3);` -/
def outIndex {R : Type} (values : Tensor5D R) (b h d xi xj : Int) : Int :=
  toInt32 (outOffset values b h d + xi * values.stride 2 + xj * values.stride 3)

/-- Line 83: `const int weightsIndex = weightsOffset + xi * weights.stride(2)
+ xj * weights.stride(3) + int((i-oni)/dilation)*KERNEL_SIZE + int((j-onj)/dilation);` -/
def weightsIndex {R : Type} (weights : Tensor5D R) (KERNEL_SIZE dilation : Int)
    (b h i j xi xj oni onj : Int) : Int :=
  toInt32 (weightsOffset weights b h + xi * weights.stride 2 + xj * weights.stride 3
    + Int.tdiv (i - oni) dilation * KERNEL_SIZE + Int.tdiv (j - onj) dilation)

/-- Line 86: `const int linearIndex = b*output.stride(0) + h*output.stride(1)
+ i*output.stride(2) + j*output.stride(3) + d;` -/
def linearIndex {R : Type} (output : Tensor5D R) (b h i j d : Int) : Int :=
  toInt32 (b * output.stride 0 + h * output.stride 1 + i * output.stride 2
    + j * output.stride 3 + d)

/-- Lines 69-85: the value accumulated in `output_update` for the output
element `(b, h, i, j, d)`. -/
def output_update {R : Type} [Zero R] [Add R] [Mul R] (weights values : Tensor5D R)
    (height width KERNEL_SIZE NEIGHBORHOOD_SIZE dilation : Int) (b h i j d : Int) : R :=
  (backward_candidates i height KERNEL_SIZE NEIGHBORHOOD_SIZE dilation).foldl (fun acc xi =>
    let oni := get_window_start xi height KERNEL_SIZE NEIGHBORHOOD_SIZE dilation
    (backward_candidates j width KERNEL_SIZE NEIGHBORHOOD_SIZE dilation).foldl (fun acc xj =>
      let onj := get_window_start xj width KERNEL_SIZE NEIGHBORHOOD_SIZE dilation
      acc + values.data (outIndex values b h d xi xj)
          * weights.data (weightsIndex weights KERNEL_SIZE dilation b h i j xi xj oni onj))
      acc) 0

/-- The function `inverse_neighborhood_2d<KS, NS, DILATION, scalar_t>`
(lines 50-92): the output accessor after the call.  The heads, which
`at::parallel_for` hands out in chunks, are taken in ascending order, and
the output buffer is disjoint from the two input buffers. -/
def inverse_neighborhood_2d {R : Type} [Zero R] [Add R] [Mul R] (KS NS DILATION : Int)
    (weights values output : Tensor5D R)
    (height width heads kernel_size_in dilation_in dim batch_size : Int) : Tensor5D R :=
  let KERNEL_SIZE := if KS > 1 then KS else kernel_size_in
  let NEIGHBORHOOD_SIZE := if NS > 0 then NS else Int.tdiv KERNEL_SIZE 2
  let dilation := if DILATION > 0 then DILATION else dilation_in
  { output with
    data :=
      (upto batch_size).foldl (fun mem b =>
        (upto heads).foldl (fun mem h =>
          (upto height).foldl (fun mem i =>
            (upto width).foldl (fun mem j =>
              (upto dim).foldl (fun mem d =>
                Function.update mem (linearIndex output b h i j d)
                  (output_update weights values height width KERNEL_SIZE NEIGHBORHOOD_SIZE
                    dilation b h i j d))
                mem) mem) mem) mem) output.data }

/-! ## Concrete accessors used as test inputs -/

/-- Weights of shape `[1, 1, 3, 3, 9]`, contiguous, element `n` holding `n + 1`. -/
def example_weights : Tensor5D Int :=
  ⟨fun n => n + 1, fun k => [81, 81, 27, 9, 1].getD k 0⟩

/-- Values of shape `[1, 1, 3, 3, 2]`, contiguous, element `n` holding `2 * n + 1`. -/
def example_values : Tensor5D Int :=
  ⟨fun n => 2 * n + 1, fun k => [18, 18, 6, 2, 1].getD k 0⟩

/-- An output buffer of shape `[1, 1, 3, 3, 2]`, contiguous, zero-filled. -/
def example_output : Tensor5D Int :=
  ⟨fun _ => 0, fun k => [18, 18, 6, 2, 1].getD k 0⟩

/-- A probe for the output of shape `[1, 1, 3, 3, 2]`. -/
def example_probe (_b _h i j d : Int) : Int :=
  3 * i + j + 5 * d + 1

/-- Values (and output) of shape `[3, 1, 1, 1, 2 ^ 30]`, contiguous, all ones:
`3 * 2 ^ 30` elements. -/
def huge_values : Tensor5D Int :=
  ⟨fun _ => 1, fun k => [1073741824, 1073741824, 1073741824, 1073741824, 1].getD k 0⟩

/-- Weights of shape `[3, 1, 1, 1, 1]`, contiguous, all ones. -/
def huge_weights : Tensor5D Int :=
  ⟨fun _ => 1, fun k => [1, 1, 1, 1, 1].getD k 0⟩

/-- A zero-filled output buffer of shape `[3, 1, 1, 1, 2 ^ 30]`, contiguous. -/
def huge_output : Tensor5D Int :=
  ⟨fun _ => 0, fun k => [1073741824, 1073741824, 1073741824, 1073741824, 1].getD k 0⟩

/-- The probe that is `1` at the elements `(2, h, i, j, 0)` and `0` elsewhere. -/
def corner_probe (b _h _i _j d : Int) : Int :=
  if b = 2 ∧ d = 0 then 1 else 0

/-! ## Window arithmetic -/

theorem grid_lt_mul {D r x y : Int} (hD : 0 < D) (hr0 : 0 ≤ r) (hr : r < D) :
    r + x * D < y * D ↔ x < y := by
  constructor
  · intro h
    by_contra hxy
    have : y * D ≤ x * D := Int.mul_le_mul_of_nonneg_right (by omega) (by omega)
    omega
  · intro h
    have : (x + 1) * D ≤ y * D := Int.mul_le_mul_of_nonneg_right (by omega) (by omega)
    have e : (x + 1) * D = x * D + D := by ring
    omega

/-- Number of positions below `L` on the dilation grid through `r`. -/
theorem grid_lt_length {D r L : Int} (x : Int) (hD : 0 < D) :
    r + x * D < L ↔ x < (L - 1 - r) / D + 1 := by
  rw [Int.lt_add_one_iff, Int.le_ediv_iff_mul_le hD]
  omega

theorem grid_inj {D r r' x y : Int} (hD : 0 < D) (hr0 : 0 ≤ r) (hr : r < D)
    (hr0' : 0 ≤ r') (hr' : r' < D) (h : r + x * D = r' + y * D) : r = r' ∧ x = y := by
  have h1 : (r + x * D) % D = (r' + y * D) % D := by rw [h]
  rw [Int.add_mul_emod_self, Int.add_mul_emod_self, Int.emod_eq_of_lt hr0 hr,
    Int.emod_eq_of_lt hr0' hr'] at h1
  subst h1
  refine ⟨rfl, ?_⟩
  have : x * D = y * D := by omega
  exact Int.eq_of_mul_eq_mul_right (by omega) this

theorem grid_split {D p : Int} (hD : 0 < D) (hp : 0 ≤ p) :
    ∃ r a : Int, 0 ≤ r ∧ r < D ∧ 0 ≤ a ∧ p = r + a * D :=
  ⟨p % D, p / D, Int.emod_nonneg _ (by omega), Int.emod_lt_of_pos _ hD,
    Int.ediv_nonneg hp (by omega), by rw [Int.emod_add_ediv']⟩


theorem tmod_grid {D r a : Int} (hD : 0 < D) (hr0 : 0 ≤ r) (hr : r < D) (ha : 0 ≤ a) :
    Int.tmod (r + a * D) D = r := by
  have : 0 ≤ a * D := Int.mul_nonneg ha (by omega)
  rw [Int.tmod_eq_emod (by omega) (by omega), Int.add_mul_emod_self, Int.emod_eq_of_lt hr0 hr]

theorem get_window_start_grid {D r a L K NS : Int} (hD : 0 < D) (hr0 : 0 ≤ r) (hr : r < D)
    (ha : 0 ≤ a) (hL : r + a * D < L) :
    get_window_start (r + a * D) L K NS D
      = r + (if a < NS then 0
             else if (L - 1 - r) / D + 1 ≤ a + NS then (L - 1 - r) / D + 1 - K
             else a - NS) * D := by
  unfold get_window_start
  have c1 : r + a * D - NS * D < 0 ↔ a < NS := by
    rw [← grid_lt_mul hD hr0 hr (x := a) (y := NS)]; omega
  have c2 : r + a * D + NS * D ≥ L ↔ (L - 1 - r) / D + 1 ≤ a + NS := by
    have := grid_lt_length (r := r) (L := L) (a + NS) hD
    have e : (a + NS) * D = a * D + NS * D := by ring
    omega
  by_cases h1 : a < NS
  · rw [if_pos (c1.2 h1), if_pos h1, tmod_grid hD hr0 hr ha]; ring
  · rw [if_neg (fun h => h1 (c1.1 h)), if_neg h1]
    by_cases h2 : (L - 1 - r) / D + 1 ≤ a + NS
    · rw [if_pos (c2.2 h2), if_pos h2]
      have e : L - 1 - (r + a * D) = (L - 1 - r) + (-a) * D := by ring
      rw [Int.tdiv_eq_ediv (by omega) (by omega), e, Int.add_mul_ediv_right _ _ (by omega)]
      ring
    · rw [if_neg (fun h => h2 (c2.1 h)), if_neg h2]; ring

theorem get_backward_window_start_grid {D r a K NS : Int} (hD : 0 < D) (hr0 : 0 ≤ r)
    (hr : r < D) (ha : 0 ≤ a) :
    get_backward_window_start (r + a * D) K NS D
      = r + (if a < K then 0 else a - NS) * D := by
  unfold get_backward_window_start
  have c1 : r + a * D < K * D ↔ a < K := grid_lt_mul hD hr0 hr
  by_cases h1 : a < K
  · rw [if_pos (c1.2 h1), if_pos h1, tmod_grid hD hr0 hr ha]; ring
  · rw [if_neg (fun h => h1 (c1.1 h)), if_neg h1]; ring

theorem lt_get_backward_window_end_grid {D r a c L K NS : Int} (hD : 0 < D) :
    r + c * D < get_backward_window_end (r + a * D) L K NS D
      ↔ c < (if (L - 1 - r) / D + 1 ≤ a + K then (L - 1 - r) / D + 1 else a + NS + 1) := by
  unfold get_backward_window_end
  have c1 : r + a * D ≥ L - K * D ↔ (L - 1 - r) / D + 1 ≤ a + K := by
    have := grid_lt_length (r := r) (L := L) (a + K) hD
    have e : (a + K) * D = a * D + K * D := by ring
    omega
  by_cases h1 : (L - 1 - r) / D + 1 ≤ a + K
  · rw [if_pos (c1.2 h1), if_pos h1]; exact grid_lt_length c hD
  · rw [if_neg (fun h => h1 (c1.1 h)), if_neg h1]
    have e : r + a * D + (NS + 1) * D = r + (a + NS + 1) * D := by ring
    rw [e]
    constructor
    · intro h
      have h' : c * D < (a + NS + 1) * D := by omega
      exact lt_of_mul_lt_mul_right h' (by omega)
    · intro h
      have : c * D < (a + NS + 1) * D := Int.mul_lt_mul_of_pos_right h hD
      omega


theorem mem_forStep {step : Int} (hstep : 0 < step) (y stop : Int) :
    ∀ (fuel : Nat) (x : Int), (stop - x).toNat ≤ fuel →
      (y ∈ forStep fuel x stop step ↔ ∃ m : Int, 0 ≤ m ∧ y = x + m * step ∧ y < stop) := by
  intro fuel
  induction fuel with
  | zero =>
    intro x hf
    simp only [forStep, List.not_mem_nil, false_iff]
    rintro ⟨m, hm, rfl, hlt⟩
    have : 0 ≤ m * step := Int.mul_nonneg hm (by omega)
    omega
  | succ n ih =>
    intro x hf
    unfold forStep
    by_cases hx : x < stop
    · rw [if_pos hx, List.mem_cons, ih (x + step) (by omega)]
      constructor
      · rintro (rfl | ⟨m, hm, rfl, hlt⟩)
        · exact ⟨0, le_refl _, by ring, hx⟩
        · exact ⟨m + 1, by omega, by ring, hlt⟩
      · rintro ⟨m, hm, rfl, hlt⟩
        by_cases h0 : m = 0
        · left; subst h0; ring
        · right; exact ⟨m - 1, by omega, by ring, hlt⟩
    · rw [if_neg hx]
      simp only [List.not_mem_nil, false_iff]
      rintro ⟨m, hm, rfl, hlt⟩
      have : 0 ≤ m * step := Int.mul_nonneg hm (by omega)
      omega

theorem forStep_lower {step : Int} (hstep : 0 < step) (stop : Int) :
    ∀ (fuel : Nat) (x y : Int), y ∈ forStep fuel x stop step → x ≤ y := by
  intro fuel
  induction fuel with
  | zero => intro x y h; simp [forStep] at h
  | succ n ih =>
    intro x y h
    unfold forStep at h
    split_ifs at h with hx
    · rcases List.mem_cons.1 h with rfl | h
      · exact le_refl _
      · have := ih _ _ h; omega
    · simp at h

theorem forStep_nodup {step : Int} (hstep : 0 < step) (stop : Int) :
    ∀ (fuel : Nat) (x : Int), (forStep fuel x stop step).Nodup := by
  intro fuel
  induction fuel with
  | zero => intro x; simp [forStep]
  | succ n ih =>
    intro x
    unfold forStep
    split_ifs with hx
    · refine List.nodup_cons.2 ⟨fun h => ?_, ih _⟩
      have := forStep_lower hstep stop _ _ _ h
      omega
    · exact List.nodup_nil

/-- Once the fuel covers the distance to `stop`, more fuel changes nothing:
the loop has left by its own test. -/
theorem forStep_fuel_enough {step : Int} (hstep : 0 < step) (stop : Int) :
    ∀ (fuel fuel' : Nat) (x : Int), (stop - x).toNat ≤ fuel → (stop - x).toNat ≤ fuel' →
      forStep fuel x stop step = forStep fuel' x stop step := by
  intro fuel
  induction fuel with
  | zero =>
    intro fuel' x hf _
    cases fuel' with
    | zero => rfl
    | succ k =>
      unfold forStep
      rw [if_neg (by omega)]
  | succ n ih =>
    intro fuel' x hf hf'
    cases fuel' with
    | zero =>
      unfold forStep
      rw [if_neg (by omega)]
    | succ k =>
      unfold forStep
      by_cases hx : x < stop
      · rw [if_pos hx, if_pos hx, ih k (x + step) (by omega) (by omega)]
      · rw [if_neg hx, if_neg hx]


theorem mem_backward_candidates {D : Int} (hD : 0 < D) (p q L K NS : Int) :
    q ∈ backward_candidates p L K NS D ↔
      ∃ m : Int, 0 ≤ m ∧ q = get_backward_window_start p K NS D + m * D ∧
        q < get_backward_window_end p L K NS D := by
  unfold backward_candidates
  exact mem_forStep hD q _ _ _ (le_refl _)

theorem mem_window_taps (p q L K NS D : Int) :
    p ∈ window_taps q L K NS D ↔
      ∃ t : Int, 0 ≤ t ∧ t < K ∧ p = get_window_start q L K NS D + t * D := by
  unfold window_taps
  rw [List.mem_map]
  constructor
  · rintro ⟨t, ht, rfl⟩
    rw [List.mem_range] at ht
    exact ⟨(t : Int), by omega, by omega, rfl⟩
  · rintro ⟨t, ht0, htK, rfl⟩
    refine ⟨t.toNat, ?_, ?_⟩
    · rw [List.mem_range]; omega
    · rw [Int.toNat_of_nonneg ht0]

theorem odd_kernel {K : Int} (hK : 0 < K) (hodd : K % 2 = 1) :
    0 ≤ Int.tdiv K 2 ∧ K = 2 * Int.tdiv K 2 + 1 := by
  rw [Int.tdiv_eq_ediv (by omega) (by omega)]
  omega

theorem grid_count_ge {D r L K : Int} (hD : 0 < D) (hr : r < D) (hL : K * D ≤ L) :
    K ≤ (L - 1 - r) / D + 1 := by
  have h := grid_lt_length (r := r) (L := L) (K - 1) hD
  have e : (K - 1) * D = K * D - D := by ring
  have : K - 1 < (L - 1 - r) / D + 1 := h.1 (by omega)
  omega

/-- The set inversion in grid coordinates. -/
theorem tap_iff_candidate_aux {L K NS D p q : Int} (hK : K = 2 * NS + 1)
    (hD : 0 < D) (hL : K * D ≤ L) (hp0 : 0 ≤ p) (hpL : p < L) (hq0 : 0 ≤ q) (hqL : q < L) :
    (∃ t : Int, 0 ≤ t ∧ t < K ∧ p = get_window_start q L K NS D + t * D) ↔
      (∃ m : Int, 0 ≤ m ∧ q = get_backward_window_start p K NS D + m * D ∧
        q < get_backward_window_end p L K NS D) := by
  obtain ⟨r, a, hr0, hr, ha, rfl⟩ := grid_split hD hp0
  obtain ⟨r', c, hr0', hr', hc, rfl⟩ := grid_split hD hq0
  rw [get_window_start_grid hD hr0' hr' hc hqL, get_backward_window_start_grid hD hr0 hr ha]
  have hn := grid_count_ge hD hr hL
  have han := (grid_lt_length (r := r) (L := L) a hD).1 hpL
  have hcn := (grid_lt_length (r := r') (L := L) c hD).1 hqL
  by_cases hrr : r = r'
  · subst hrr
    have hl : (∃ t : Int, 0 ≤ t ∧ t < K ∧
        r + a * D = r + (if c < NS then 0 else if (L - 1 - r) / D + 1 ≤ c + NS then (L - 1 - r) / D + 1 - K else c - NS) * D + t * D)
        ↔ ((if c < NS then 0 else if (L - 1 - r) / D + 1 ≤ c + NS then (L - 1 - r) / D + 1 - K else c - NS) ≤ a ∧
            a < (if c < NS then 0 else if (L - 1 - r) / D + 1 ≤ c + NS then (L - 1 - r) / D + 1 - K else c - NS) + K) := by
      generalize (if c < NS then 0 else if (L - 1 - r) / D + 1 ≤ c + NS then (L - 1 - r) / D + 1 - K else c - NS) = s
      constructor
      · rintro ⟨t, ht0, htK, h⟩
        have e : r + s * D + t * D = r + (s + t) * D := by ring
        rw [e] at h
        have := (grid_inj hD hr0 hr hr0 hr h).2
        omega
      · rintro ⟨h1, h2⟩
        exact ⟨a - s, by omega, by omega, by ring⟩
    have hr_ : (∃ m : Int, 0 ≤ m ∧ r + c * D = r + (if a < K then 0 else a - NS) * D + m * D ∧
        r + c * D < get_backward_window_end (r + a * D) L K NS D)
        ↔ ((if a < K then 0 else a - NS) ≤ c ∧ r + c * D < get_backward_window_end (r + a * D) L K NS D) := by
      generalize (if a < K then 0 else a - NS) = s
      constructor
      · rintro ⟨m, hm0, h, hlt⟩
        have e : r + s * D + m * D = r + (s + m) * D := by ring
        rw [e] at h
        have := (grid_inj hD hr0 hr hr0 hr h).2
        exact ⟨by omega, hlt⟩
      · rintro ⟨h1, h2⟩
        exact ⟨c - s, by omega, by ring, h2⟩
    rw [hl, hr_, lt_get_backward_window_end_grid hD]
    generalize (L - 1 - r) / D + 1 = n at hn han hcn ⊢
    split_ifs <;> constructor <;> intro h <;> constructor <;> omega
  · constructor
    · rintro ⟨t, _, _, h⟩
      generalize (if c < NS then 0 else if (L - 1 - r') / D + 1 ≤ c + NS then (L - 1 - r') / D + 1 - K
        else c - NS) = s at h
      have e : r' + s * D + t * D = r' + (s + t) * D := by ring
      rw [e] at h
      exact absurd (grid_inj hD hr0 hr hr0' hr' h).1 hrr
    · rintro ⟨m, _, h, _⟩
      generalize (if a < K then 0 else a - NS) = s at h
      have e : r + s * D + m * D = r + (s + m) * D := by ring
      rw [e] at h
      exact absurd (grid_inj hD hr0' hr' hr0 hr h).1 (fun h => hrr h.symm)

/-- The forward window of an in-range position: non-negative start, last
tap below the length, and the position itself is one of the taps. -/
theorem get_window_start_spec {L K NS D p : Int} (hK : K = 2 * NS + 1) (hNS : 0 ≤ NS)
    (hD : 0 < D) (hL : K * D ≤ L) (hp0 : 0 ≤ p) (hpL : p < L) :
    0 ≤ get_window_start p L K NS D ∧
      get_window_start p L K NS D + (K - 1) * D < L ∧
      ∃ t : Int, 0 ≤ t ∧ t < K ∧ p = get_window_start p L K NS D + t * D := by
  obtain ⟨r, a, hr0, hr, ha, rfl⟩ := grid_split hD hp0
  rw [get_window_start_grid hD hr0 hr ha hpL]
  have hn := grid_count_ge hD hr hL
  have han := (grid_lt_length (r := r) (L := L) a hD).1 hpL
  have key : ∀ s : Int, 0 ≤ s → s + (K - 1) < (L - 1 - r) / D + 1 → s ≤ a → a < s + K →
      0 ≤ r + s * D ∧ r + s * D + (K - 1) * D < L ∧
        ∃ t : Int, 0 ≤ t ∧ t < K ∧ r + a * D = r + s * D + t * D := by
    intro s hs0 hs1 hs2 hs3
    have h0 : 0 ≤ s * D := Int.mul_nonneg hs0 (by omega)
    refine ⟨by omega, ?_, a - s, by omega, by omega, by ring⟩
    have e : r + s * D + (K - 1) * D = r + (s + (K - 1)) * D := by ring
    rw [e]
    exact (grid_lt_length (s + (K - 1)) hD).2 hs1
  generalize (L - 1 - r) / D + 1 = n at hn han key ⊢
  split_ifs <;> apply key <;> omega

theorem mul_le_of_lt_kernel {K D t : Int} (hD : 0 < D) (ht : t < K) :
    t * D ≤ (K - 1) * D :=
  Int.mul_le_mul_of_nonneg_right (by omega) (by omega)

/-- Every tap of the forward window of an in-range position is in range. -/
theorem window_tap_in_range {L K NS D p t : Int} (hK : K = 2 * NS + 1) (hNS : 0 ≤ NS)
    (hD : 0 < D) (hL : K * D ≤ L) (hp0 : 0 ≤ p) (hpL : p < L) (ht0 : 0 ≤ t) (htK : t < K) :
    0 ≤ get_window_start p L K NS D + t * D ∧ get_window_start p L K NS D + t * D < L := by
  obtain ⟨h0, h1, _⟩ := get_window_start_spec hK hNS hD hL hp0 hpL
  have := mul_le_of_lt_kernel hD htK
  have : 0 ≤ t * D := Int.mul_nonneg ht0 (by omega)
  omega

/-- The backward window lies inside `[0, L)`. -/
theorem backward_window_range {L K NS D p : Int} (hK : K = 2 * NS + 1) (hNS : 0 ≤ NS)
    (hD : 0 < D) (hp0 : 0 ≤ p) :
    0 ≤ get_backward_window_start p K NS D ∧ get_backward_window_end p L K NS D ≤ L := by
  have hNSD : 0 ≤ NS * D := Int.mul_nonneg hNS (by omega)
  have hKD : K * D = 2 * (NS * D) + D := by rw [hK]; ring
  constructor
  · unfold get_backward_window_start
    split_ifs with h
    · rw [Int.tmod_eq_emod hp0 (by omega)]
      exact Int.emod_nonneg _ (by omega)
    · omega
  · unfold get_backward_window_end
    split_ifs with h
    · exact le_refl _
    · have e : (NS + 1) * D = NS * D + D := by ring
      omega

/-- Every candidate visited by the backward loop is an in-range position. -/
theorem backward_candidate_in_range {L K NS D p q : Int} (hK : K = 2 * NS + 1) (hNS : 0 ≤ NS)
    (hD : 0 < D) (hp0 : 0 ≤ p) (hq : q ∈ backward_candidates p L K NS D) :
    0 ≤ q ∧ q < L := by
  obtain ⟨m, hm, hqe, hlt⟩ := (mem_backward_candidates hD p q L K NS).1 hq
  obtain ⟨h0, h1⟩ := backward_window_range (L := L) hK hNS hD hp0
  have : 0 ≤ m * D := Int.mul_nonneg hm (by omega)
  omega

/-- Forward taps and backward candidates are inverse to each other. -/
theorem mem_window_taps_iff_mem_backward_candidates {L K NS D p q : Int} (hK : K = 2 * NS + 1)
    (hD : 0 < D) (hL : K * D ≤ L) (hp0 : 0 ≤ p) (hpL : p < L) (hq0 : 0 ≤ q) (hqL : q < L) :
    p ∈ window_taps q L K NS D ↔ q ∈ backward_candidates p L K NS D := by
  rw [mem_window_taps, mem_backward_candidates hD]
  exact tap_iff_candidate_aux hK hD hL hp0 hpL hq0 hqL

/-- The tap number `(p - start) / dilation` recovers the tap. -/
theorem tap_quotient {D s t : Int} (hD : 0 < D) (ht : 0 ≤ t) :
    Int.tdiv (s + t * D - s) D = t ∧ (s + t * D - s) / D = t := by
  have e : s + t * D - s = t * D := by ring
  have h0 : 0 ≤ t * D := Int.mul_nonneg ht (by omega)
  rw [e, Int.tdiv_eq_ediv h0 (by omega), Int.mul_ediv_cancel _ (by omega)]
  exact ⟨rfl, rfl⟩

/-- At a candidate `q` of the backward loop of `p`, `p` is tap number
`(p - start q) / dilation` of the window of `q`. -/
theorem backward_candidate_tap {L K NS D p q : Int} (hK : K = 2 * NS + 1) (hNS : 0 ≤ NS)
    (hD : 0 < D) (hL : K * D ≤ L) (hp0 : 0 ≤ p) (hpL : p < L)
    (hq : q ∈ backward_candidates p L K NS D) :
    ∃ t : Int, 0 ≤ t ∧ t < K ∧ p = get_window_start q L K NS D + t * D ∧
      Int.tdiv (p - get_window_start q L K NS D) D = t ∧
      (p - get_window_start q L K NS D) / D = t := by
  obtain ⟨hq0, hqL⟩ := backward_candidate_in_range hK hNS hD hp0 hq
  have hmem := (mem_window_taps_iff_mem_backward_candidates hK hD hL hp0 hpL hq0 hqL).2 hq
  obtain ⟨t, ht0, htK, hpe⟩ := (mem_window_taps p q L K NS D).1 hmem
  refine ⟨t, ht0, htK, hpe, ?_⟩
  have := tap_quotient (s := get_window_start q L K NS D) hD ht0
  rw [← hpe] at this
  exact this

theorem mem_upto (x n : Int) : x ∈ upto n ↔ 0 ≤ x ∧ x < n := by
  unfold upto
  rw [List.mem_map]
  constructor
  · rintro ⟨k, hk, rfl⟩
    rw [List.mem_range] at hk
    constructor
    · exact Int.ofNat_nonneg k
    · show (k : Int) < n
      omega
  · rintro ⟨h0, h1⟩
    refine ⟨x.toNat, ?_, ?_⟩
    · rw [List.mem_range]; omega
    · show ((x.toNat : Nat) : Int) = x
      omega

theorem nodup_upto (n : Int) : (upto n).Nodup := by
  unfold upto
  exact (List.nodup_range _).map (fun a b h => Int.ofNat.inj h)

theorem nodup_backward_candidates {D : Int} (hD : 0 < D) (p L K NS : Int) :
    (backward_candidates p L K NS D).Nodup := by
  unfold backward_candidates
  exact forStep_nodup hD _ _ _

/-! ## Stores, accumulation and flat indices -/

/-! ### Stores -/

theorem foldl_nested {α β γ : Type} (f : β → γ → β) (g : α → List γ) (l : List α) (m0 : β) :
    l.foldl (fun m x => (g x).foldl f m) m0 = (l.flatMap g).foldl f m0 := by
  induction l generalizing m0 with
  | nil => rfl
  | cons a l ih => simp only [List.foldl_cons, List.flatMap_cons, List.foldl_append, ih]

theorem foldl_update_other {ι R : Type} (key : ι → Int) (val : ι → R) (l : List ι)
    (mem : Int → R) (k : Int) (hk : ∀ x ∈ l, key x ≠ k) :
    l.foldl (fun m x => Function.update m (key x) (val x)) mem k = mem k := by
  induction l generalizing mem with
  | nil => rfl
  | cons a l ih =>
    rw [List.foldl_cons, ih _ (fun x hx => hk x (List.mem_cons_of_mem _ hx))]
    exact Function.update_noteq (fun h => hk a (List.mem_cons_self _ _) h.symm) _ _

theorem foldl_update_mem {ι R : Type} (key : ι → Int) (val : ι → R) (l : List ι)
    (mem : Int → R) (x : ι) (hx : x ∈ l) (huniq : ∀ y ∈ l, key y = key x → val y = val x) :
    l.foldl (fun m y => Function.update m (key y) (val y)) mem (key x) = val x := by
  induction l generalizing mem x with
  | nil => simp at hx
  | cons a l ih =>
    rw [List.foldl_cons]
    by_cases h : ∃ y ∈ l, key y = key x
    · obtain ⟨y, hy, hyx⟩ := h
      have hv : val y = val x := huniq y (List.mem_cons_of_mem _ hy) hyx
      have := ih (Function.update mem (key a) (val a)) y hy
        (fun z hz hzy => by
          rw [hv]; exact huniq z (List.mem_cons_of_mem _ hz) (hzy.trans hyx))
      rw [← hyx, this, hv]
    · have hno : ∀ y ∈ l, key y ≠ key x := fun y hy hyx => h ⟨y, hy, hyx⟩
      rw [foldl_update_other key val l _ _ hno]
      rcases List.mem_cons.1 hx with rfl | hxl
      · exact Function.update_same _ _ _
      · exact absurd rfl (hno x hxl)

/-! ### Accumulation -/

theorem foldl_add_eq_sum {ι R : Type} [AddCommMonoid R] (g : ι → R) (l : List ι) (a : R) :
    l.foldl (fun acc x => acc + g x) a = a + (l.map g).sum := by
  induction l generalizing a with
  | nil => simp
  | cons x l ih => rw [List.foldl_cons, ih, List.map_cons, List.sum_cons, add_assoc]

theorem foldl_foldl_add_eq_sum {ι κ R : Type} [AddCommMonoid R] (F : ι → κ → R)
    (li : List ι) (lj : List κ) :
    li.foldl (fun acc x => lj.foldl (fun acc y => acc + F x y) acc) 0
      = (li.map fun x => (lj.map (F x)).sum).sum := by
  have h : (fun (acc : R) (x : ι) => lj.foldl (fun acc y => acc + F x y) acc)
      = fun acc x => acc + (lj.map (F x)).sum := by
    funext acc x
    exact foldl_add_eq_sum (F x) lj acc
  rw [h, foldl_add_eq_sum, zero_add]

theorem backward_candidates_toFinset {L K NS D p : Int} (hK : K = 2 * NS + 1) (hNS : 0 ≤ NS)
    (hD : 0 < D) (hL : K * D ≤ L) (hp0 : 0 ≤ p) (hpL : p < L) :
    (backward_candidates p L K NS D).toFinset
      = (Finset.Ico 0 L).filter (fun q => p ∈ window_taps q L K NS D) := by
  ext q
  rw [List.mem_toFinset, Finset.mem_filter, Finset.mem_Ico]
  constructor
  · intro hq
    obtain ⟨hq0, hqL⟩ := backward_candidate_in_range hK hNS hD hp0 hq
    exact ⟨⟨hq0, hqL⟩,
      (mem_window_taps_iff_mem_backward_candidates hK hD hL hp0 hpL hq0 hqL).2 hq⟩
  · rintro ⟨⟨hq0, hqL⟩, h⟩
    exact (mem_window_taps_iff_mem_backward_candidates hK hD hL hp0 hpL hq0 hqL).1 h

/-- A sum over the backward loop is the sum over all positions whose
forward window contains the position. -/
theorem sum_backward_candidates {R : Type} [AddCommMonoid R] {L K NS D p : Int}
    (hK : K = 2 * NS + 1) (hNS : 0 ≤ NS)
    (hD : 0 < D) (hL : K * D ≤ L) (hp0 : 0 ≤ p) (hpL : p < L) (g : Int → R) :
    ((backward_candidates p L K NS D).map g).sum
      = Finset.sum (Finset.Ico 0 L) (fun q => if p ∈ window_taps q L K NS D then g q else 0) := by
  rw [← List.sum_toFinset g (nodup_backward_candidates hD p L K NS),
    backward_candidates_toFinset hK hNS hD hL hp0 hpL, Finset.sum_filter]

/-! ### Flat indices of a contiguous tensor -/

theorem toInt32_of_lt {x : Int} (h0 : 0 ≤ x) (h1 : x < 2147483648) : toInt32 x = x := by
  unfold toInt32; omega

theorem radix_bound {x X y Y : Int} (hx0 : 0 ≤ x) (hx : x < X) (hy0 : 0 ≤ y) (hy : y < Y) :
    0 ≤ x * Y + y ∧ x * Y + y < X * Y := by
  have h1 : 0 ≤ x * Y := Int.mul_nonneg hx0 (by omega)
  have h2 : (x + 1) * Y ≤ X * Y := Int.mul_le_mul_of_nonneg_right (by omega) (by omega)
  have e : (x + 1) * Y = x * Y + Y := by ring
  omega

theorem flat_horner (n1 n2 n3 n4 b h i j d : Int) :
    b * (n1 * n2 * n3 * n4) + h * (n2 * n3 * n4) + i * (n3 * n4) + j * n4 + d
      = (((b * n1 + h) * n2 + i) * n3 + j) * n4 + d := by
  ring

theorem flat_bound {n0 n1 n2 n3 n4 b h i j d : Int}
    (hb : 0 ≤ b ∧ b < n0) (hh : 0 ≤ h ∧ h < n1) (hi : 0 ≤ i ∧ i < n2) (hj : 0 ≤ j ∧ j < n3)
    (hd : 0 ≤ d ∧ d < n4) :
    0 ≤ b * (n1 * n2 * n3 * n4) + h * (n2 * n3 * n4) + i * (n3 * n4) + j * n4 + d ∧
      b * (n1 * n2 * n3 * n4) + h * (n2 * n3 * n4) + i * (n3 * n4) + j * n4 + d
        < n0 * n1 * n2 * n3 * n4 := by
  rw [flat_horner]
  have h1 := radix_bound hb.1 hb.2 hh.1 hh.2
  have h2 := radix_bound h1.1 h1.2 hi.1 hi.2
  have h3 := radix_bound h2.1 h2.2 hj.1 hj.2
  exact radix_bound h3.1 h3.2 hd.1 hd.2

theorem radix_inj {x x' y y' Y : Int} (hy : 0 ≤ y ∧ y < Y) (hy' : 0 ≤ y' ∧ y' < Y)
    (h : x * Y + y = x' * Y + y') : x = x' ∧ y = y' := by
  have hY : 0 < Y := by omega
  have e : y + x * Y = y' + x' * Y := by omega
  have := grid_inj hY hy.1 hy.2 hy'.1 hy'.2 e
  exact ⟨this.2, this.1⟩

theorem flat_inj {n1 n2 n3 n4 b h i j d b' h' i' j' d' : Int}
    (hh : 0 ≤ h ∧ h < n1) (hi : 0 ≤ i ∧ i < n2) (hj : 0 ≤ j ∧ j < n3) (hd : 0 ≤ d ∧ d < n4)
    (hh' : 0 ≤ h' ∧ h' < n1) (hi' : 0 ≤ i' ∧ i' < n2) (hj' : 0 ≤ j' ∧ j' < n3)
    (hd' : 0 ≤ d' ∧ d' < n4)
    (e : b * (n1 * n2 * n3 * n4) + h * (n2 * n3 * n4) + i * (n3 * n4) + j * n4 + d
      = b' * (n1 * n2 * n3 * n4) + h' * (n2 * n3 * n4) + i' * (n3 * n4) + j' * n4 + d') :
    b = b' ∧ h = h' ∧ i = i' ∧ j = j' ∧ d = d' := by
  rw [flat_horner, flat_horner] at e
  obtain ⟨e1, rfl⟩ := radix_inj hd hd' e
  obtain ⟨e2, rfl⟩ := radix_inj hj hj' e1
  obtain ⟨e3, rfl⟩ := radix_inj hi hi' e2
  obtain ⟨rfl, rfl⟩ := radix_inj hh hh' e3
  exact ⟨rfl, rfl, rfl, rfl, rfl⟩

/-- With exact index arithmetic, `linearIndex` is the flat position of
element `(b, h, i, j, d)`. -/
theorem linearIndex_eq {R : Type} {output : Tensor5D R} {n0 n1 n2 n3 n4 b h i j d : Int}
    (ho : output.IsContiguous n1 n2 n3 n4)
    (hex : ∀ x : Int, 0 ≤ x → x < n0 * n1 * n2 * n3 * n4 → toInt32 x = x)
    (hb : 0 ≤ b ∧ b < n0) (hh : 0 ≤ h ∧ h < n1) (hi : 0 ≤ i ∧ i < n2) (hj : 0 ≤ j ∧ j < n3)
    (hd : 0 ≤ d ∧ d < n4) :
    linearIndex output b h i j d
      = b * (n1 * n2 * n3 * n4) + h * (n2 * n3 * n4) + i * (n3 * n4) + j * n4 + d := by
  obtain ⟨s0, s1, s2, s3, _⟩ := ho
  unfold linearIndex
  rw [s0, s1, s2, s3]
  have hbd := flat_bound hb hh hi hj hd
  exact hex _ hbd.1 hbd.2

/-- With exact index arithmetic, `outIndex` is the flat position of element
`(b, h, xi, xj, d)`. -/
theorem outIndex_eq {R : Type} {values : Tensor5D R} {n0 n1 n2 n3 n4 b h d xi xj : Int}
    (hv : values.IsContiguous n1 n2 n3 n4)
    (hex : ∀ x : Int, 0 ≤ x → x < n0 * n1 * n2 * n3 * n4 → toInt32 x = x)
    (hb : 0 ≤ b ∧ b < n0) (hh : 0 ≤ h ∧ h < n1) (hi : 0 ≤ xi ∧ xi < n2)
    (hj : 0 ≤ xj ∧ xj < n3) (hd : 0 ≤ d ∧ d < n4) :
    outIndex values b h d xi xj
      = b * (n1 * n2 * n3 * n4) + h * (n2 * n3 * n4) + xi * (n3 * n4) + xj * n4 + d := by
  obtain ⟨s0, s1, s2, s3, _⟩ := hv
  unfold outIndex outOffset
  rw [s0, s1, s2, s3]
  have z2 : (0 : Int) ≤ 0 ∧ 0 < n2 := ⟨le_refl 0, by omega⟩
  have z3 : (0 : Int) ≤ 0 ∧ 0 < n3 := ⟨le_refl 0, by omega⟩
  have hb0 := flat_bound hb hh z2 z3 hd
  have e0 : b * (n1 * n2 * n3 * n4) + h * (n2 * n3 * n4) + d
      = b * (n1 * n2 * n3 * n4) + h * (n2 * n3 * n4) + 0 * (n3 * n4) + 0 * n4 + d := by ring
  rw [e0, hex _ hb0.1 hb0.2]
  have hbd := flat_bound hb hh hi hj hd
  have e1 : b * (n1 * n2 * n3 * n4) + h * (n2 * n3 * n4) + 0 * (n3 * n4) + 0 * n4 + d
      + xi * (n3 * n4) + xj * n4
      = b * (n1 * n2 * n3 * n4) + h * (n2 * n3 * n4) + xi * (n3 * n4) + xj * n4 + d := by ring
  rw [e1]
  exact hex _ hbd.1 hbd.2

/-- With exact index arithmetic, `weightsIndex` is the flat position of
element `(b, h, xi, xj, ti * K + tj)` when `i`, `j` are taps `ti`, `tj` of
the windows starting at `oni`, `onj`. -/
theorem weightsIndex_eq {R : Type} {weights : Tensor5D R}
    {n0 n1 n2 n3 K D b h i j xi xj oni onj ti tj : Int}
    (hw : weights.IsContiguous n1 n2 n3 (K * K))
    (hex : ∀ x : Int, 0 ≤ x → x < n0 * n1 * n2 * n3 * (K * K) → toInt32 x = x)
    (hb : 0 ≤ b ∧ b < n0) (hh : 0 ≤ h ∧ h < n1) (hi : 0 ≤ xi ∧ xi < n2)
    (hj : 0 ≤ xj ∧ xj < n3) (hti : 0 ≤ ti ∧ ti < K) (htj : 0 ≤ tj ∧ tj < K)
    (hqi : Int.tdiv (i - oni) D = ti) (hqj : Int.tdiv (j - onj) D = tj) :
    weightsIndex weights K D b h i j xi xj oni onj
      = b * (n1 * n2 * n3 * (K * K)) + h * (n2 * n3 * (K * K)) + xi * (n3 * (K * K))
        + xj * (K * K) + (ti * K + tj) := by
  obtain ⟨s0, s1, s2, s3, _⟩ := hw
  unfold weightsIndex weightsOffset
  rw [s0, s1, s2, s3, hqi, hqj]
  have ht := radix_bound hti.1 hti.2 htj.1 htj.2
  have z2 : (0 : Int) ≤ 0 ∧ 0 < n2 := ⟨le_refl 0, by omega⟩
  have z3 : (0 : Int) ≤ 0 ∧ 0 < n3 := ⟨le_refl 0, by omega⟩
  have z4 : (0 : Int) ≤ 0 ∧ 0 < K * K := ⟨le_refl 0, by omega⟩
  have hb0 := flat_bound hb hh z2 z3 z4
  have e0 : b * (n1 * n2 * n3 * (K * K)) + h * (n2 * n3 * (K * K))
      = b * (n1 * n2 * n3 * (K * K)) + h * (n2 * n3 * (K * K)) + 0 * (n3 * (K * K))
        + 0 * (K * K) + 0 := by ring
  rw [e0, hex _ hb0.1 hb0.2]
  have hbd := flat_bound hb hh hi hj ht
  have e1 : b * (n1 * n2 * n3 * (K * K)) + h * (n2 * n3 * (K * K)) + 0 * (n3 * (K * K))
      + 0 * (K * K) + 0 + xi * (n3 * (K * K)) + xj * (K * K) + ti * K + tj
      = b * (n1 * n2 * n3 * (K * K)) + h * (n2 * n3 * (K * K)) + xi * (n3 * (K * K))
        + xj * (K * K) + (ti * K + tj) := by ring
  rw [e1, hex _ hbd.1 hbd.2]
  ring

/-- The product accumulated at a candidate pair is the product of the
addressed weight and value elements. -/
theorem summand_eq {R : Type} [CommRing R] {weights values : Tensor5D R}
    {K NS D height width heads dim batch_size b h i j d xi xj : Int}
    (hK : K = 2 * NS + 1) (hNS : 0 ≤ NS) (hD : 0 < D) (hH : K * D ≤ height)
    (hW : K * D ≤ width)
    (hw : weights.IsContiguous heads height width (K * K))
    (hv : values.IsContiguous heads height width dim)
    (hexW : ∀ x : Int, 0 ≤ x → x < batch_size * heads * height * width * (K * K) →
      toInt32 x = x)
    (hexV : ∀ x : Int, 0 ≤ x → x < batch_size * heads * height * width * dim → toInt32 x = x)
    (hb : 0 ≤ b ∧ b < batch_size) (hh : 0 ≤ h ∧ h < heads) (hi : 0 ≤ i ∧ i < height)
    (hj : 0 ≤ j ∧ j < width) (hd : 0 ≤ d ∧ d < dim)
    (hxi : xi ∈ backward_candidates i height K NS D)
    (hxj : xj ∈ backward_candidates j width K NS D) :
    values.data (outIndex values b h d xi xj)
        * weights.data (weightsIndex weights K D b h i j xi xj
            (get_window_start xi height K NS D) (get_window_start xj width K NS D))
      = weights.get b h xi xj
            ((i - get_window_start xi height K NS D) / D * K
              + (j - get_window_start xj width K NS D) / D)
          * values.get b h xi xj d := by
  have rxi := backward_candidate_in_range hK hNS hD hi.1 hxi
  have rxj := backward_candidate_in_range hK hNS hD hj.1 hxj
  obtain ⟨ti, hti0, htiK, _, hqi, hqi'⟩ := backward_candidate_tap hK hNS hD hH hi.1 hi.2 hxi
  obtain ⟨tj, htj0, htjK, _, hqj, hqj'⟩ := backward_candidate_tap hK hNS hD hW hj.1 hj.2 hxj
  rw [outIndex_eq hv hexV hb hh rxi rxj hd,
    weightsIndex_eq hw hexW hb hh rxi rxj ⟨hti0, htiK⟩ ⟨htj0, htjK⟩ hqi hqj, hqi', hqj']
  unfold Tensor5D.get
  obtain ⟨w0, w1, w2, w3, w4⟩ := hw
  obtain ⟨v0, v1, v2, v3, v4⟩ := hv
  rw [w0, w1, w2, w3, w4, v0, v1, v2, v3, v4, mul_one, mul_one, mul_comm]

/-- The accumulated value is the sum over all producers whose forward
windows contain the output position. -/
theorem output_update_eq {R : Type} [CommRing R] {weights values : Tensor5D R}
    {K NS D height width heads dim batch_size b h i j d : Int}
    (hK : K = 2 * NS + 1) (hNS : 0 ≤ NS) (hD : 0 < D) (hH : K * D ≤ height)
    (hW : K * D ≤ width)
    (hw : weights.IsContiguous heads height width (K * K))
    (hv : values.IsContiguous heads height width dim)
    (hexW : ∀ x : Int, 0 ≤ x → x < batch_size * heads * height * width * (K * K) →
      toInt32 x = x)
    (hexV : ∀ x : Int, 0 ≤ x → x < batch_size * heads * height * width * dim → toInt32 x = x)
    (hb : 0 ≤ b ∧ b < batch_size) (hh : 0 ≤ h ∧ h < heads) (hi : 0 ≤ i ∧ i < height)
    (hj : 0 ≤ j ∧ j < width) (hd : 0 ≤ d ∧ d < dim) :
    output_update weights values height width K NS D b h i j d
      = Finset.sum (Finset.Ico 0 height) fun qi =>
          Finset.sum (Finset.Ico 0 width) fun qj =>
            if i ∈ window_taps qi height K NS D ∧ j ∈ window_taps qj width K NS D then
              weights.get b h qi qj
                  ((i - get_window_start qi height K NS D) / D * K
                    + (j - get_window_start qj width K NS D) / D)
                * values.get b h qi qj d
            else 0 := by
  unfold output_update
  refine (foldl_foldl_add_eq_sum (fun xi xj =>
    values.data (outIndex values b h d xi xj)
        * weights.data (weightsIndex weights K D b h i j xi xj
            (get_window_start xi height K NS D) (get_window_start xj width K NS D))) _ _).trans ?_
  have hcongr : ∀ xi ∈ backward_candidates i height K NS D,
      ((backward_candidates j width K NS D).map (fun xj =>
        values.data (outIndex values b h d xi xj)
          * weights.data (weightsIndex weights K D b h i j xi xj
              (get_window_start xi height K NS D) (get_window_start xj width K NS D)))).sum
      = Finset.sum (Finset.Ico 0 width) (fun qj =>
          if j ∈ window_taps qj width K NS D then
            weights.get b h xi qj
                ((i - get_window_start xi height K NS D) / D * K
                  + (j - get_window_start qj width K NS D) / D)
              * values.get b h xi qj d
          else 0) := by
    intro xi hxi
    rw [← sum_backward_candidates hK hNS hD hW hj.1 hj.2]
    congr 1
    apply List.map_congr_left
    intro xj hxj
    exact summand_eq hK hNS hD hH hW hw hv hexW hexV hb hh hi hj hd hxi hxj
  rw [List.map_congr_left hcongr, sum_backward_candidates hK hNS hD hH hi.1 hi.2]
  apply Finset.sum_congr rfl
  intro qi _
  by_cases hqi : i ∈ window_taps qi height K NS D
  · simp only [hqi, if_true, true_and]
  · simp only [hqi, if_false, false_and, Finset.sum_const_zero]

/-- The loop nest performs, in order, one store per index tuple. -/
theorem inverse_neighborhood_2d_data {R : Type} [Zero R] [Add R] [Mul R]
    (KS NS DILATION : Int) (weights values output : Tensor5D R)
    (height width heads kernel_size_in dilation_in dim batch_size : Int) :
    (inverse_neighborhood_2d KS NS DILATION weights values output height width heads
        kernel_size_in dilation_in dim batch_size).data
      = ((upto batch_size).flatMap fun b => (upto heads).flatMap fun h =>
          (upto height).flatMap fun i => (upto width).flatMap fun j =>
            (upto dim).map fun d => (b, h, i, j, d)).foldl
          (fun mem t =>
            Function.update mem (linearIndex output t.1 t.2.1 t.2.2.1 t.2.2.2.1 t.2.2.2.2)
              (output_update weights values height width
                (if KS > 1 then KS else kernel_size_in)
                (if NS > 0 then NS else Int.tdiv (if KS > 1 then KS else kernel_size_in) 2)
                (if DILATION > 0 then DILATION else dilation_in)
                t.1 t.2.1 t.2.2.1 t.2.2.2.1 t.2.2.2.2))
          output.data := by
  unfold inverse_neighborhood_2d
  simp only [← foldl_nested, List.foldl_map]

/-- With exact index arithmetic, the element `(b, h, i, j, d)` of the output
holds, after the call, the value accumulated for it. -/
theorem inverse_neighborhood_2d_get {R : Type} [Zero R] [Add R] [Mul R]
    (KS NS DILATION : Int) (weights values output : Tensor5D R)
    (height width heads kernel_size_in dilation_in dim batch_size : Int)
    (ho : output.IsContiguous heads height width dim)
    (hexV : ∀ x : Int, 0 ≤ x → x < batch_size * heads * height * width * dim → toInt32 x = x)
    (b h i j d : Int)
    (hb : 0 ≤ b ∧ b < batch_size) (hh : 0 ≤ h ∧ h < heads) (hi : 0 ≤ i ∧ i < height)
    (hj : 0 ≤ j ∧ j < width) (hd : 0 ≤ d ∧ d < dim) :
    (inverse_neighborhood_2d KS NS DILATION weights values output height width heads
        kernel_size_in dilation_in dim batch_size).get b h i j d
      = output_update weights values height width
          (if KS > 1 then KS else kernel_size_in)
          (if NS > 0 then NS else Int.tdiv (if KS > 1 then KS else kernel_size_in) 2)
          (if DILATION > 0 then DILATION else dilation_in) b h i j d := by
  unfold Tensor5D.get
  rw [inverse_neighborhood_2d_data]
  have hstride : (inverse_neighborhood_2d KS NS DILATION weights values output height width
      heads kernel_size_in dilation_in dim batch_size).stride = output.stride := rfl
  have hlin := linearIndex_eq ho hexV hb hh hi hj hd
  obtain ⟨s0, s1, s2, s3, s4⟩ := ho
  rw [hstride, s0, s1, s2, s3, s4, mul_one, ← hlin]
  refine foldl_update_mem
    (fun t : Int × Int × Int × Int × Int =>
      linearIndex output t.1 t.2.1 t.2.2.1 t.2.2.2.1 t.2.2.2.2)
    (fun t : Int × Int × Int × Int × Int =>
      output_update weights values height width
        (if KS > 1 then KS else kernel_size_in)
        (if NS > 0 then NS else Int.tdiv (if KS > 1 then KS else kernel_size_in) 2)
        (if DILATION > 0 then DILATION else dilation_in)
        t.1 t.2.1 t.2.2.1 t.2.2.2.1 t.2.2.2.2) _ _ (b, h, i, j, d) ?_ ?_
  · simp only [List.mem_flatMap, List.mem_map, mem_upto]
    exact ⟨b, hb, h, hh, i, hi, j, hj, d, hd, rfl⟩
  · rintro ⟨b', h', i', j', d'⟩ hy hkey
    simp only [List.mem_flatMap, List.mem_map, mem_upto, Prod.mk.injEq] at hy
    obtain ⟨b2, hb2, h2, hh2, i2, hi2, j2, hj2, d2, hd2, rfl, rfl, rfl, rfl, rfl⟩ := hy
    have ho' : output.IsContiguous heads height width dim := ⟨s0, s1, s2, s3, s4⟩
    simp only at hkey
    rw [linearIndex_eq ho' hexV hb2 hh2 hi2 hj2 hd2, hlin] at hkey
    obtain ⟨rfl, rfl, rfl, rfl, rfl⟩ := flat_inj hh2 hi2 hj2 hd2 hh hi hj hd hkey
    rfl

/-- Sums over the taps of a window: summing over the positions of the axis
that are taps, with their tap number, is summing over the tap numbers. -/
theorem sum_window_taps {M : Type} [AddCommMonoid M] {L K NS D q : Int} (hK : K = 2 * NS + 1)
    (hNS : 0 ≤ NS) (hD : 0 < D) (hL : K * D ≤ L) (hq0 : 0 ≤ q) (hqL : q < L)
    (F : Int → Int → M) :
    Finset.sum (Finset.Ico 0 L) (fun i =>
        if i ∈ window_taps q L K NS D then F i ((i - get_window_start q L K NS D) / D) else 0)
      = Finset.sum (Finset.Ico 0 K) (fun t => F (get_window_start q L K NS D + t * D) t) := by
  rw [← Finset.sum_filter]
  have himg : (Finset.Ico 0 L).filter (fun i => i ∈ window_taps q L K NS D)
      = (Finset.Ico 0 K).image (fun t => get_window_start q L K NS D + t * D) := by
    ext i
    rw [Finset.mem_filter, Finset.mem_Ico, Finset.mem_image, mem_window_taps]
    constructor
    · rintro ⟨_, t, ht0, htK, rfl⟩
      exact ⟨t, Finset.mem_Ico.2 ⟨ht0, htK⟩, rfl⟩
    · rintro ⟨t, ht, rfl⟩
      rw [Finset.mem_Ico] at ht
      exact ⟨window_tap_in_range hK hNS hD hL hq0 hqL ht.1 ht.2, t, ht.1, ht.2, rfl⟩
  rw [himg, Finset.sum_image]
  · apply Finset.sum_congr rfl
    intro t ht
    rw [Finset.mem_Ico] at ht
    rw [(tap_quotient hD ht.1).2]
  · intro t _ t' _ h
    have : t * D = t' * D := by
      simp only at h
      omega
    exact Int.eq_of_mul_eq_mul_right (by omega) this

theorem sum_comm_inner {M : Type} [AddCommMonoid M] (s1 s2 s3 s4 : Finset Int)
    (f : Int → Int → Int → Int → M) :
    Finset.sum s1 (fun i => Finset.sum s2 (fun j => Finset.sum s3 (fun d =>
        Finset.sum s4 (fun q => f i j d q))))
      = Finset.sum s4 (fun q => Finset.sum s1 (fun i => Finset.sum s2 (fun j =>
          Finset.sum s3 (fun d => f i j d q)))) := by
  calc Finset.sum s1 (fun i => Finset.sum s2 (fun j => Finset.sum s3 (fun d =>
        Finset.sum s4 (fun q => f i j d q))))
      = Finset.sum s1 (fun i => Finset.sum s2 (fun j => Finset.sum s4 (fun q =>
          Finset.sum s3 (fun d => f i j d q)))) := by
        apply Finset.sum_congr rfl; intro i _
        apply Finset.sum_congr rfl; intro j _
        exact Finset.sum_comm
    _ = Finset.sum s1 (fun i => Finset.sum s4 (fun q => Finset.sum s2 (fun j =>
          Finset.sum s3 (fun d => f i j d q)))) := by
        apply Finset.sum_congr rfl; intro i _
        exact Finset.sum_comm
    _ = _ := Finset.sum_comm

/-- For one `(batch, head)` slice: pairing the gathered sums with a probe
equals pairing every producer tap with the probe at the tapped position. -/
theorem adjoint_slice {R : Type} [CommRing R] {K NS D height width dim : Int}
    (hK : K = 2 * NS + 1) (hNS : 0 ≤ NS) (hD : 0 < D) (hH : K * D ≤ height)
    (hW : K * D ≤ width) (w v p : Int → Int → Int → R) :
    Finset.sum (Finset.Ico 0 height) (fun i => Finset.sum (Finset.Ico 0 width) (fun j =>
      Finset.sum (Finset.Ico 0 dim) (fun d =>
        (Finset.sum (Finset.Ico 0 height) fun qi => Finset.sum (Finset.Ico 0 width) fun qj =>
          if i ∈ window_taps qi height K NS D ∧ j ∈ window_taps qj width K NS D then
            w qi qj ((i - get_window_start qi height K NS D) / D * K
              + (j - get_window_start qj width K NS D) / D) * v qi qj d
          else 0) * p i j d)))
    = Finset.sum (Finset.Ico 0 height) (fun qi => Finset.sum (Finset.Ico 0 width) (fun qj =>
        Finset.sum (Finset.Ico 0 K) (fun ti => Finset.sum (Finset.Ico 0 K) (fun tj =>
          Finset.sum (Finset.Ico 0 dim) (fun d =>
            w qi qj (ti * K + tj) * v qi qj d
              * p (get_window_start qi height K NS D + ti * D)
                  (get_window_start qj width K NS D + tj * D) d))))) := by
  simp only [Finset.sum_mul]
  rw [sum_comm_inner]
  apply Finset.sum_congr rfl
  intro qi hqi
  rw [sum_comm_inner]
  apply Finset.sum_congr rfl
  intro qj hqj
  rw [Finset.mem_Ico] at hqi hqj
  rw [← sum_window_taps hK hNS hD hH hqi.1 hqi.2 (fun i ti =>
    Finset.sum (Finset.Ico 0 K) (fun tj => Finset.sum (Finset.Ico 0 dim) (fun d =>
      w qi qj (ti * K + tj) * v qi qj d * p i (get_window_start qj width K NS D + tj * D) d)))]
  apply Finset.sum_congr rfl
  intro i _
  by_cases hTi : i ∈ window_taps qi height K NS D
  · simp only [hTi, true_and, if_true]
    rw [← sum_window_taps hK hNS hD hW hqj.1 hqj.2 (fun j tj =>
      Finset.sum (Finset.Ico 0 dim) (fun d =>
        w qi qj ((i - get_window_start qi height K NS D) / D * K + tj) * v qi qj d * p i j d))]
    apply Finset.sum_congr rfl
    intro j _
    by_cases hTj : j ∈ window_taps qj width K NS D
    · simp only [hTj, if_true]
    · simp only [hTj, if_false, zero_mul, Finset.sum_const_zero]
  · simp only [hTi, false_and, if_false, zero_mul, Finset.sum_const_zero]

/-- Value of an output element after the call, with the effective kernel
size `K`, neighborhood size `K / 2` and dilation `D`. -/
theorem inverse_neighborhood_2d_get_eq_sum {R : Type} [CommRing R]
    (KS NS DILATION kernel_size_in dilation_in K D : Int)
    (weights values output : Tensor5D R) (height width heads dim batch_size : Int)
    (hKS : (if KS > 1 then KS else kernel_size_in) = K)
    (hNS : (if NS > 0 then NS else Int.tdiv K 2) = Int.tdiv K 2)
    (hDIL : (if DILATION > 0 then DILATION else dilation_in) = D)
    (hK : 0 < K) (hodd : K % 2 = 1) (hD : 1 ≤ D) (hH : K * D ≤ height) (hW : K * D ≤ width)
    (hw : weights.IsContiguous heads height width (K * K))
    (hv : values.IsContiguous heads height width dim)
    (ho : output.IsContiguous heads height width dim)
    (hexW : ∀ x : Int, 0 ≤ x → x < batch_size * heads * height * width * (K * K) →
      toInt32 x = x)
    (hexV : ∀ x : Int, 0 ≤ x → x < batch_size * heads * height * width * dim → toInt32 x = x)
    (b h i j d : Int)
    (hb : 0 ≤ b ∧ b < batch_size) (hh : 0 ≤ h ∧ h < heads) (hi : 0 ≤ i ∧ i < height)
    (hj : 0 ≤ j ∧ j < width) (hd : 0 ≤ d ∧ d < dim) :
    (inverse_neighborhood_2d KS NS DILATION weights values output height width heads
        kernel_size_in dilation_in dim batch_size).get b h i j d
      = Finset.sum (Finset.Ico 0 height) fun qi =>
          Finset.sum (Finset.Ico 0 width) fun qj =>
            if i ∈ window_taps qi height K (Int.tdiv K 2) D
                ∧ j ∈ window_taps qj width K (Int.tdiv K 2) D then
              weights.get b h qi qj
                  ((i - get_window_start qi height K (Int.tdiv K 2) D) / D * K
                    + (j - get_window_start qj width K (Int.tdiv K 2) D) / D)
                * values.get b h qi qj d
            else 0 := by
  rw [inverse_neighborhood_2d_get KS NS DILATION weights values output height width heads
    kernel_size_in dilation_in dim batch_size ho hexV b h i j d hb hh hi hj hd, hKS, hNS, hDIL]
  obtain ⟨hNS0, hK2⟩ := odd_kernel hK hodd
  exact output_update_eq hK2 hNS0 (by omega) hH hW hw hv hexW hexV hb hh hi hj hd

theorem toInt32_lt (x : Int) : toInt32 x < 2147483648 := by
  unfold toInt32; omega

/-- No store of the kernel goes to a flat position from `2 ^ 31` on: the
index of every store is an `int`. -/
theorem inverse_neighborhood_2d_beyond_int {R : Type} [Zero R] [Add R] [Mul R]
    (KS NS DILATION : Int) (weights values output : Tensor5D R)
    (height width heads kernel_size_in dilation_in dim batch_size : Int)
    (k : Int) (hk : 2147483648 ≤ k) :
    (inverse_neighborhood_2d KS NS DILATION weights values output height width heads
        kernel_size_in dilation_in dim batch_size).data k = output.data k := by
  rw [inverse_neighborhood_2d_data]
  apply foldl_update_other
  intro t _ h
  have := toInt32_lt (t.1 * output.stride 0 + t.2.1 * output.stride 1
    + t.2.2.1 * output.stride 2 + t.2.2.2.1 * output.stride 3 + t.2.2.2.2)
  unfold linearIndex at h
  omega

theorem sum_Ico_zero_one {M : Type} [AddCommMonoid M] (f : Int → M) :
    Finset.sum (Finset.Ico 0 1) f = f 0 := by
  have : Finset.Ico (0 : Int) 1 = {0} := by decide
  rw [this, Finset.sum_singleton]

theorem sum_corner {N : Int} (hN : 0 < N) (b : Int) (f : Int → Int) :
    Finset.sum (Finset.Ico 0 N) (fun d => f d * (if b = 2 ∧ d = 0 then 1 else 0))
      = if b = 2 then f 0 else 0 := by
  by_cases hb : b = 2
  · rw [if_pos hb, Finset.sum_eq_single 0]
    · simp [hb]
    · intro d _ hd
      simp [hd]
    · intro h
      exact absurd (Finset.mem_Ico.2 ⟨le_refl _, hN⟩) h
  · rw [if_neg hb]
    apply Finset.sum_eq_zero
    intro d _
    simp [hb]

theorem sum_Ico_zero_three_corner (f : Int → Int) :
    Finset.sum (Finset.Ico 0 3) (fun b => if b = 2 then f b else 0) = f 2 := by
  rw [Finset.sum_ite_eq' (Finset.Ico (0 : Int) 3) 2 f, if_pos (by decide)]

/-! ## The kernel: claims -/

/-- C1 (amended). For a valid 2D configuration (odd kernel size `K`, dilation
`D >= 1`, `K * D <= height, width`, contiguous tensors, scalars in a
commutative ring) whose weights and values tensors have at most `2 ^ 31`
elements each, after `inverse_neighborhood_2d` the output element `(b, h, i, j, d)` is the sum,
over exactly the producers `(qi, qj)` whose forward windows have `i` and `j`
among their taps, of `weights[b,h,qi,qj, ti*K + tj] * values[b,h,qi,qj,d]`
with `ti = (i - get_window_start qi) / D`, `tj = (j - get_window_start qj) / D`. -/
theorem inverse_neighborhood_2d_gathers_producers {R : Type} [CommRing R]
    (KS NS DILATION kernel_size_in dilation_in K D : Int)
    (weights values output : Tensor5D R) (height width heads dim batch_size : Int)
    (hKS : (if KS > 1 then KS else kernel_size_in) = K)
    (hNS : (if NS > 0 then NS else Int.tdiv K 2) = Int.tdiv K 2)
    (hDIL : (if DILATION > 0 then DILATION else dilation_in) = D)
    (hK : 0 < K) (hodd : K % 2 = 1) (hD : 1 ≤ D) (hH : K * D ≤ height) (hW : K * D ≤ width)
    (hw : weights.IsContiguous heads height width (K * K))
    (hv : values.IsContiguous heads height width dim)
    (ho : output.IsContiguous heads height width dim)
    (hfitW : batch_size * heads * height * width * (K * K) ≤ 2147483648)
    (hfitV : batch_size * heads * height * width * dim ≤ 2147483648)
    (b h i j d : Int)
    (hb : 0 ≤ b ∧ b < batch_size) (hh : 0 ≤ h ∧ h < heads) (hi : 0 ≤ i ∧ i < height)
    (hj : 0 ≤ j ∧ j < width) (hd : 0 ≤ d ∧ d < dim) :
    (inverse_neighborhood_2d KS NS DILATION weights values output height width heads
        kernel_size_in dilation_in dim batch_size).get b h i j d
      = Finset.sum (Finset.Ico 0 height) fun qi =>
          Finset.sum (Finset.Ico 0 width) fun qj =>
            if i ∈ window_taps qi height K (Int.tdiv K 2) D
                ∧ j ∈ window_taps qj width K (Int.tdiv K 2) D then
              weights.get b h qi qj
                  ((i - get_window_start qi height K (Int.tdiv K 2) D) / D * K
                    + (j - get_window_start qj width K (Int.tdiv K 2) D) / D)
                * values.get b h qi qj d
            else 0 :=
  inverse_neighborhood_2d_get_eq_sum KS NS DILATION kernel_size_in dilation_in K D weights
    values output height width heads dim batch_size hKS hNS hDIL hK hodd hD hH hW hw hv ho
    (fun _ h0 h1 => toInt32_of_lt h0 (by omega)) (fun _ h0 h1 => toInt32_of_lt h0 (by omega))
    b h i j d hb hh hi hj hd

/-- C1 (amended), at a concrete input: shape `[1, 1, 3, 3, .]`, kernel size 3, dilation 1,
run-time kernel parameters (template arguments `-1`), output element
`(0, 0, 1, 2, 1)`, which holds `9342`. -/
theorem inverse_neighborhood_2d_gathers_producers_witness :
    (inverse_neighborhood_2d (-1) (-1) (-1) example_weights example_values example_output
        3 3 1 3 1 2 1).get 0 0 1 2 1 = 9342 ∧
    (inverse_neighborhood_2d (-1) (-1) (-1) example_weights example_values example_output
        3 3 1 3 1 2 1).get 0 0 1 2 1
      = Finset.sum (Finset.Ico 0 3) fun qi =>
          Finset.sum (Finset.Ico 0 3) fun qj =>
            if (1 : Int) ∈ window_taps qi 3 3 (Int.tdiv 3 2) 1
                ∧ (2 : Int) ∈ window_taps qj 3 3 (Int.tdiv 3 2) 1 then
              example_weights.get 0 0 qi qj
                  ((1 - get_window_start qi 3 3 (Int.tdiv 3 2) 1) / 1 * 3
                    + (2 - get_window_start qj 3 3 (Int.tdiv 3 2) 1) / 1)
                * example_values.get 0 0 qi qj 1
            else 0 :=
  ⟨by decide,
    inverse_neighborhood_2d_gathers_producers (-1) (-1) (-1) 3 1 3 1 example_weights
      example_values example_output 3 3 1 2 1 (by decide) (by decide) (by decide) (by decide)
      (by decide) (by decide) (by decide) (by decide) (by decide) (by decide) (by decide)
      (by decide) (by decide)
      0 0 1 2 1 (by decide) (by decide) (by decide) (by decide) (by decide)⟩

/-- C1 as stated fails: values and output of shape `[3, 1, 1, 1, 2 ^ 30]`
(contiguous, `3 * 2 ^ 30` elements), weights of shape `[3, 1, 1, 1, 1]`, all
ones, `K = 1`, `D = 1`, zero-filled output buffer.  The sum claimed for the
output element `(2, 0, 0, 0, 0)` is `1`, but the element, at flat position
`2 ^ 31`, still holds `0` after the call: no store goes there, since
`linearIndex` is an `int`. -/
theorem output_element_beyond_int_not_written :
    (0 : Int) < 1 ∧ (1 : Int) % 2 = 1 ∧ (1 : Int) * 1 ≤ 1 ∧
    huge_weights.IsContiguous 1 1 1 (1 * 1) ∧
    huge_values.IsContiguous 1 1 1 1073741824 ∧
    huge_output.IsContiguous 1 1 1 1073741824 ∧
    (inverse_neighborhood_2d (-1) (-1) (-1) huge_weights huge_values huge_output
        1 1 1 1 1 1073741824 3).get 2 0 0 0 0 = 0 ∧
    (Finset.sum (Finset.Ico 0 1) fun qi =>
        Finset.sum (Finset.Ico 0 1) fun qj =>
          if (0 : Int) ∈ window_taps qi 1 1 (Int.tdiv 1 2) 1
              ∧ (0 : Int) ∈ window_taps qj 1 1 (Int.tdiv 1 2) 1 then
            huge_weights.get 2 0 qi qj
                ((0 - get_window_start qi 1 1 (Int.tdiv 1 2) 1) / 1 * 1
                  + (0 - get_window_start qj 1 1 (Int.tdiv 1 2) 1) / 1)
              * huge_values.get 2 0 qi qj 0
          else 0) = 1 :=
  ⟨by decide, by decide, by decide, by decide, by decide, by decide,
    inverse_neighborhood_2d_beyond_int (-1) (-1) (-1) huge_weights huge_values huge_output
      1 1 1 1 1 1073741824 3 2147483648 (le_refl _),
    by decide⟩

/-- C2 (amended). For a valid 2D configuration (odd `K`, `D >= 1`, `K * D <=
height, width`, contiguous tensors, exact scalar arithmetic) whose weights
and values tensors have at most `2 ^ 31` elements each, and every probe `P`, the
output of `inverse_neighborhood_2d` paired with `P` over all
`(b, h, i, j, d)` equals the sum over all producers `(b, h, qi, qj)`, all
taps `(ti, tj)` in `[0, K) x [0, K)` and all `d` of
`W[b,h,qi,qj,ti*K+tj] * V[b,h,qi,qj,d] * P[b,h,start qi + ti*D, start qj + tj*D, d]`:
the kernel is the transpose of the forward windowed gather. -/
theorem inverse_neighborhood_2d_is_transpose {R : Type} [CommRing R]
    (KS NS DILATION kernel_size_in dilation_in K D : Int)
    (weights values output : Tensor5D R) (height width heads dim batch_size : Int)
    (hKS : (if KS > 1 then KS else kernel_size_in) = K)
    (hNS : (if NS > 0 then NS else Int.tdiv K 2) = Int.tdiv K 2)
    (hDIL : (if DILATION > 0 then DILATION else dilation_in) = D)
    (hK : 0 < K) (hodd : K % 2 = 1) (hD : 1 ≤ D) (hH : K * D ≤ height) (hW : K * D ≤ width)
    (hw : weights.IsContiguous heads height width (K * K))
    (hv : values.IsContiguous heads height width dim)
    (ho : output.IsContiguous heads height width dim)
    (hfitW : batch_size * heads * height * width * (K * K) ≤ 2147483648)
    (hfitV : batch_size * heads * height * width * dim ≤ 2147483648)
    (P : Int → Int → Int → Int → Int → R) :
    Finset.sum (Finset.Ico 0 batch_size) (fun b => Finset.sum (Finset.Ico 0 heads) (fun h =>
      Finset.sum (Finset.Ico 0 height) (fun i => Finset.sum (Finset.Ico 0 width) (fun j =>
        Finset.sum (Finset.Ico 0 dim) (fun d =>
          (inverse_neighborhood_2d KS NS DILATION weights values output height width heads
            kernel_size_in dilation_in dim batch_size).get b h i j d * P b h i j d)))))
    = Finset.sum (Finset.Ico 0 batch_size) (fun b => Finset.sum (Finset.Ico 0 heads) (fun h =>
        Finset.sum (Finset.Ico 0 height) (fun qi => Finset.sum (Finset.Ico 0 width) (fun qj =>
          Finset.sum (Finset.Ico 0 K) (fun ti => Finset.sum (Finset.Ico 0 K) (fun tj =>
            Finset.sum (Finset.Ico 0 dim) (fun d =>
              weights.get b h qi qj (ti * K + tj) * values.get b h qi qj d
                * P b h (get_window_start qi height K (Int.tdiv K 2) D + ti * D)
                    (get_window_start qj width K (Int.tdiv K 2) D + tj * D) d))))))) := by
  obtain ⟨hNS0, hK2⟩ := odd_kernel hK hodd
  apply Finset.sum_congr rfl
  intro b hb
  apply Finset.sum_congr rfl
  intro h hh
  rw [Finset.mem_Ico] at hb hh
  rw [← adjoint_slice hK2 hNS0 (by omega) hH hW (fun qi qj t => weights.get b h qi qj t)
    (fun qi qj d => values.get b h qi qj d) (fun i j d => P b h i j d)]
  apply Finset.sum_congr rfl
  intro i hi
  apply Finset.sum_congr rfl
  intro j hj
  apply Finset.sum_congr rfl
  intro d hd
  rw [Finset.mem_Ico] at hi hj hd
  rw [inverse_neighborhood_2d_get_eq_sum KS NS DILATION kernel_size_in dilation_in K D weights
    values output height width heads dim batch_size hKS hNS hDIL hK hodd hD hH hW hw hv ho
    (fun _ h0 h1 => toInt32_of_lt h0 (by omega)) (fun _ h0 h1 => toInt32_of_lt h0 (by omega))
    b h i j d hb hh hi hj hd]

/-- C2 (amended), at a concrete input: shape `[1, 1, 3, 3, .]`, kernel size 3, dilation 1,
run-time kernel parameters; both sides are `1224315`. -/
theorem inverse_neighborhood_2d_is_transpose_witness :
    Finset.sum (Finset.Ico 0 1) (fun b => Finset.sum (Finset.Ico 0 1) (fun h =>
      Finset.sum (Finset.Ico 0 3) (fun i => Finset.sum (Finset.Ico 0 3) (fun j =>
        Finset.sum (Finset.Ico 0 2) (fun d =>
          (inverse_neighborhood_2d (-1) (-1) (-1) example_weights example_values
            example_output 3 3 1 3 1 2 1).get b h i j d * example_probe b h i j d)))))
      = 1224315 ∧
    Finset.sum (Finset.Ico 0 1) (fun b => Finset.sum (Finset.Ico 0 1) (fun h =>
      Finset.sum (Finset.Ico 0 3) (fun i => Finset.sum (Finset.Ico 0 3) (fun j =>
        Finset.sum (Finset.Ico 0 2) (fun d =>
          (inverse_neighborhood_2d (-1) (-1) (-1) example_weights example_values
            example_output 3 3 1 3 1 2 1).get b h i j d * example_probe b h i j d)))))
    = Finset.sum (Finset.Ico 0 1) (fun b => Finset.sum (Finset.Ico 0 1) (fun h =>
        Finset.sum (Finset.Ico 0 3) (fun qi => Finset.sum (Finset.Ico 0 3) (fun qj =>
          Finset.sum (Finset.Ico 0 3) (fun ti => Finset.sum (Finset.Ico 0 3) (fun tj =>
            Finset.sum (Finset.Ico 0 2) (fun d =>
              example_weights.get b h qi qj (ti * 3 + tj) * example_values.get b h qi qj d
                * example_probe b h (get_window_start qi 3 3 (Int.tdiv 3 2) 1 + ti * 1)
                    (get_window_start qj 3 3 (Int.tdiv 3 2) 1 + tj * 1) d))))))) :=
  ⟨by decide,
    inverse_neighborhood_2d_is_transpose (-1) (-1) (-1) 3 1 3 1 example_weights
      example_values example_output 3 3 1 2 1 (by decide) (by decide) (by decide) (by decide)
      (by decide) (by decide) (by decide) (by decide) (by decide) (by decide) (by decide)
      (by decide) (by decide)
      example_probe⟩

/-- C2 as stated fails: values and output of shape `[3, 1, 1, 1, 2 ^ 30]`
(contiguous), weights of shape `[3, 1, 1, 1, 1]`, all ones, `K = 1`, `D = 1`,
zero-filled output buffer, and the probe that is `1` exactly at the element
`(2, 0, 0, 0, 0)`.  The pairing of the output with the probe is `0`, because
that element at flat position `2 ^ 31` is never written, while the sum over
producers and taps is `1`. -/
theorem transpose_identity_fails_on_huge_tensor :
    (0 : Int) < 1 ∧ (1 : Int) % 2 = 1 ∧ (1 : Int) * 1 ≤ 1 ∧
    huge_weights.IsContiguous 1 1 1 (1 * 1) ∧
    huge_values.IsContiguous 1 1 1 1073741824 ∧
    huge_output.IsContiguous 1 1 1 1073741824 ∧
    Finset.sum (Finset.Ico 0 3) (fun b => Finset.sum (Finset.Ico 0 1) (fun h =>
      Finset.sum (Finset.Ico 0 1) (fun i => Finset.sum (Finset.Ico 0 1) (fun j =>
        Finset.sum (Finset.Ico 0 1073741824) (fun d =>
          (inverse_neighborhood_2d (-1) (-1) (-1) huge_weights huge_values huge_output
            1 1 1 1 1 1073741824 3).get b h i j d * corner_probe b h i j d))))) = 0 ∧
    Finset.sum (Finset.Ico 0 3) (fun b => Finset.sum (Finset.Ico 0 1) (fun h =>
      Finset.sum (Finset.Ico 0 1) (fun qi => Finset.sum (Finset.Ico 0 1) (fun qj =>
        Finset.sum (Finset.Ico 0 1) (fun ti => Finset.sum (Finset.Ico 0 1) (fun tj =>
          Finset.sum (Finset.Ico 0 1073741824) (fun d =>
            huge_weights.get b h qi qj (ti * 1 + tj) * huge_values.get b h qi qj d
              * corner_probe b h (get_window_start qi 1 1 (Int.tdiv 1 2) 1 + ti * 1)
                  (get_window_start qj 1 1 (Int.tdiv 1 2) 1 + tj * 1) d))))))) = 1 := by
  refine ⟨by decide, by decide, by decide, by decide, by decide, by decide, ?_, ?_⟩
  · simp only [sum_Ico_zero_one, corner_probe]
    have h : ∀ b : Int, Finset.sum (Finset.Ico 0 1073741824) (fun d =>
        (inverse_neighborhood_2d (-1) (-1) (-1) huge_weights huge_values huge_output
          1 1 1 1 1 1073741824 3).get b 0 0 0 d * (if b = 2 ∧ d = 0 then 1 else 0))
        = if b = 2 then (inverse_neighborhood_2d (-1) (-1) (-1) huge_weights huge_values
            huge_output 1 1 1 1 1 1073741824 3).get b 0 0 0 0 else 0 :=
      fun b => sum_corner (by decide) b _
    simp only [h]
    rw [sum_Ico_zero_three_corner]
    exact inverse_neighborhood_2d_beyond_int (-1) (-1) (-1) huge_weights huge_values
      huge_output 1 1 1 1 1 1073741824 3 2147483648 (le_refl _)
  · simp only [sum_Ico_zero_one, corner_probe]
    have h : ∀ b : Int, Finset.sum (Finset.Ico 0 1073741824) (fun d =>
        huge_weights.get b 0 0 0 (0 * 1 + 0) * huge_values.get b 0 0 0 d
          * (if b = 2 ∧ d = 0 then 1 else 0))
        = if b = 2 then huge_weights.get b 0 0 0 (0 * 1 + 0) * huge_values.get b 0 0 0 0
          else 0 :=
      fun b => sum_corner (by decide) b _
    simp only [h]
    rw [sum_Ico_zero_three_corner]
    rfl

/-- C3. Forward and backward windows are set-inverses on one axis: for odd
`K`, `NS = K / 2`, `D >= 1`, `K * D <= L` and positions `p, q` in `[0, L)`,
`p` is one of the `K` taps `get_window_start q + t * D` exactly when `q` is
visited by the backward loop at `p`, that is `q = get_backward_window_start
p + m * D` for some `m >= 0` with `q < get_backward_window_end p`. -/
theorem forward_backward_windows_inverse (L K D p q : Int)
    (hK : 0 < K) (hodd : K % 2 = 1) (hD : 1 ≤ D) (hL : K * D ≤ L)
    (hp : 0 ≤ p ∧ p < L) (hq : 0 ≤ q ∧ q < L) :
    ((∃ t : Int, 0 ≤ t ∧ t < K ∧ p = get_window_start q L K (Int.tdiv K 2) D + t * D) ↔
      (∃ m : Int, 0 ≤ m ∧ q = get_backward_window_start p K (Int.tdiv K 2) D + m * D ∧
        q < get_backward_window_end p L K (Int.tdiv K 2) D)) ∧
    (q ∈ backward_candidates p L K (Int.tdiv K 2) D ↔
      (∃ m : Int, 0 ≤ m ∧ q = get_backward_window_start p K (Int.tdiv K 2) D + m * D ∧
        q < get_backward_window_end p L K (Int.tdiv K 2) D)) ∧
    (p ∈ window_taps q L K (Int.tdiv K 2) D ↔ q ∈ backward_candidates p L K (Int.tdiv K 2) D) := by
  obtain ⟨_, hK2⟩ := odd_kernel hK hodd
  have hD0 : 0 < D := by omega
  exact ⟨tap_iff_candidate_aux hK2 hD0 hL hp.1 hp.2 hq.1 hq.2,
    mem_backward_candidates hD0 p q L K _,
    mem_window_taps_iff_mem_backward_candidates hK2 hD0 hL hp.1 hp.2 hq.1 hq.2⟩

/-- C3, at `L = 6`, `K = 3`, `D = 2`, `p = 4`, `q = 0`: position 4 is a tap of
the window `0, 2, 4` of position 0, and the backward loop at 4 visits
`0, 2, 4`, so it visits 0. -/
theorem forward_backward_windows_inverse_witness :
    window_taps 0 6 3 (Int.tdiv 3 2) 2 = [0, 2, 4] ∧
    backward_candidates 4 6 3 (Int.tdiv 3 2) 2 = [0, 2, 4] ∧
    ((4 : Int) ∈ window_taps 0 6 3 (Int.tdiv 3 2) 2 ↔
      (0 : Int) ∈ backward_candidates 4 6 3 (Int.tdiv 3 2) 2) :=
  ⟨by decide, by decide,
    (forward_backward_windows_inverse 6 3 2 4 0 (by decide) (by decide) (by decide)
      (by decide) (by decide) (by decide)).2.2⟩

/-- C4. Window invariant: for odd `K`, `NS = K / 2`, `D >= 1`, `K * D <= L` and
`p` in `[0, L)`, the forward window start `s = get_window_start p` gives
exactly `K` distinct taps `s, s + D, ..., s + (K - 1) * D`, all in `[0, L)`,
one of which is `p`: `0 <= s`, `s + (K - 1) * D < L`, `s <= p <= s + (K - 1) * D`
and `D` divides `p - s`.  Clamping shifts the window and never shrinks it. -/
theorem forward_window_invariant (L K D p : Int)
    (hK : 0 < K) (hodd : K % 2 = 1) (hD : 1 ≤ D) (hL : K * D ≤ L) (hp : 0 ≤ p ∧ p < L) :
    0 ≤ get_window_start p L K (Int.tdiv K 2) D ∧
    get_window_start p L K (Int.tdiv K 2) D + (K - 1) * D < L ∧
    get_window_start p L K (Int.tdiv K 2) D ≤ p ∧
    p ≤ get_window_start p L K (Int.tdiv K 2) D + (K - 1) * D ∧
    D ∣ p - get_window_start p L K (Int.tdiv K 2) D ∧
    ((window_taps p L K (Int.tdiv K 2) D).length : Int) = K ∧
    (window_taps p L K (Int.tdiv K 2) D).Nodup ∧
    (∀ x ∈ window_taps p L K (Int.tdiv K 2) D, 0 ≤ x ∧ x < L) ∧
    p ∈ window_taps p L K (Int.tdiv K 2) D := by
  obtain ⟨hNS0, hK2⟩ := odd_kernel hK hodd
  have hD0 : 0 < D := by omega
  obtain ⟨h0, h1, t, ht0, htK, hpt⟩ := get_window_start_spec hK2 hNS0 hD0 hL hp.1 hp.2
  have htD : 0 ≤ t * D := Int.mul_nonneg ht0 (by omega)
  have htD' := mul_le_of_lt_kernel hD0 htK
  refine ⟨h0, h1, by omega, by omega, ⟨t, by rw [mul_comm]; omega⟩, ?_, ?_, ?_, ?_⟩
  · unfold window_taps
    rw [List.length_map, List.length_range]
    omega
  · unfold window_taps
    refine (List.nodup_range _).map ?_
    intro a c hac
    have e : (a : Int) * D = (c : Int) * D := by
      simp only at hac
      omega
    have := Int.eq_of_mul_eq_mul_right (by omega) e
    omega
  · intro x hx
    obtain ⟨u, hu0, huK, rfl⟩ := (mem_window_taps x p L K _ D).1 hx
    exact window_tap_in_range hK2 hNS0 hD0 hL hp.1 hp.2 hu0 huK
  · exact (mem_window_taps p p L K _ D).2 ⟨t, ht0, htK, hpt⟩

/-- C4, at the two inputs of the specification: `L = 6`, `K = 3`, `D = 2`,
`p = 0` has taps `0, 2, 4`, and `L = 5`, `K = 3`, `D = 1`, `p = 0` has taps
`0, 1, 2`. -/
theorem forward_window_invariant_witness :
    window_taps 0 6 3 (Int.tdiv 3 2) 2 = [0, 2, 4] ∧
    window_taps 0 5 3 (Int.tdiv 3 2) 1 = [0, 1, 2] ∧
    (0 ≤ get_window_start 0 6 3 (Int.tdiv 3 2) 2 ∧
      get_window_start 0 6 3 (Int.tdiv 3 2) 2 + (3 - 1) * 2 < 6 ∧
      get_window_start 0 6 3 (Int.tdiv 3 2) 2 ≤ 0 ∧
      0 ≤ get_window_start 0 6 3 (Int.tdiv 3 2) 2 + (3 - 1) * 2 ∧
      2 ∣ 0 - get_window_start 0 6 3 (Int.tdiv 3 2) 2 ∧
      ((window_taps 0 6 3 (Int.tdiv 3 2) 2).length : Int) = 3 ∧
      (window_taps 0 6 3 (Int.tdiv 3 2) 2).Nodup ∧
      (∀ x ∈ window_taps 0 6 3 (Int.tdiv 3 2) 2, 0 ≤ x ∧ x < 6) ∧
      (0 : Int) ∈ window_taps 0 6 3 (Int.tdiv 3 2) 2) :=
  ⟨by decide, by decide,
    forward_window_invariant 6 3 2 0 (by decide) (by decide) (by decide) (by decide)
      (by decide)⟩

/-- C9 (amended). Index safety of the inner loop when the tensors have at
most `2 ^ 31` elements: for a valid configuration (odd `K`, `NS = K / 2`,
`D >= 1`, `K * D <= height, width`, contiguous weights of shape
`[batch, heads, height, width, K * K]` and values and output of shape
`[batch, heads, height, width, dim]`), every output position and every
candidate `(xi, xj)` visited by the loops, `xi` and `xj` are in range,
`i - oni` and `j - onj` are `ti * D` and `tj * D` with `ti, tj` in `[0, K)`,
the flat tap index is in `[0, K * K)`, and `weightsIndex`, `outIndex`,
`linearIndex` are the flat positions of elements of row `(b, h, xi, xj)` of
the weights and values and of row `(b, h, i, j)` of the output. -/
theorem inner_loop_index_safety {R : Type} (K D height width heads dim batch_size : Int)
    (weights values output : Tensor5D R)
    (hK : 0 < K) (hodd : K % 2 = 1) (hD : 1 ≤ D) (hH : K * D ≤ height) (hW : K * D ≤ width)
    (hw : weights.IsContiguous heads height width (K * K))
    (hv : values.IsContiguous heads height width dim)
    (ho : output.IsContiguous heads height width dim)
    (hfitW : batch_size * heads * height * width * (K * K) ≤ 2147483648)
    (hfitV : batch_size * heads * height * width * dim ≤ 2147483648)
    (b h i j d xi xj : Int)
    (hb : 0 ≤ b ∧ b < batch_size) (hh : 0 ≤ h ∧ h < heads) (hi : 0 ≤ i ∧ i < height)
    (hj : 0 ≤ j ∧ j < width) (hd : 0 ≤ d ∧ d < dim)
    (hxi : xi ∈ backward_candidates i height K (Int.tdiv K 2) D)
    (hxj : xj ∈ backward_candidates j width K (Int.tdiv K 2) D) :
    (0 ≤ xi ∧ xi < height) ∧ (0 ≤ xj ∧ xj < width) ∧
    (∃ ti : Int, 0 ≤ ti ∧ ti < K ∧
      i - get_window_start xi height K (Int.tdiv K 2) D = ti * D ∧
      Int.tdiv (i - get_window_start xi height K (Int.tdiv K 2) D) D = ti) ∧
    (∃ tj : Int, 0 ≤ tj ∧ tj < K ∧
      j - get_window_start xj width K (Int.tdiv K 2) D = tj * D ∧
      Int.tdiv (j - get_window_start xj width K (Int.tdiv K 2) D) D = tj) ∧
    (0 ≤ Int.tdiv (i - get_window_start xi height K (Int.tdiv K 2) D) D * K
          + Int.tdiv (j - get_window_start xj width K (Int.tdiv K 2) D) D ∧
      Int.tdiv (i - get_window_start xi height K (Int.tdiv K 2) D) D * K
          + Int.tdiv (j - get_window_start xj width K (Int.tdiv K 2) D) D < K * K) ∧
    weightsIndex weights K D b h i j xi xj
        (get_window_start xi height K (Int.tdiv K 2) D)
        (get_window_start xj width K (Int.tdiv K 2) D)
      = (((b * heads + h) * height + xi) * width + xj) * (K * K)
        + (Int.tdiv (i - get_window_start xi height K (Int.tdiv K 2) D) D * K
          + Int.tdiv (j - get_window_start xj width K (Int.tdiv K 2) D) D) ∧
    outIndex values b h d xi xj = (((b * heads + h) * height + xi) * width + xj) * dim + d ∧
    linearIndex output b h i j d = (((b * heads + h) * height + i) * width + j) * dim + d := by
  obtain ⟨hNS0, hK2⟩ := odd_kernel hK hodd
  have hD0 : 0 < D := by omega
  have hexW : ∀ x : Int, 0 ≤ x → x < batch_size * heads * height * width * (K * K) →
      toInt32 x = x := fun x h0 h1 => toInt32_of_lt h0 (by omega)
  have hexV : ∀ x : Int, 0 ≤ x → x < batch_size * heads * height * width * dim →
      toInt32 x = x := fun x h0 h1 => toInt32_of_lt h0 (by omega)
  have rxi := backward_candidate_in_range hK2 hNS0 hD0 hi.1 hxi
  have rxj := backward_candidate_in_range hK2 hNS0 hD0 hj.1 hxj
  obtain ⟨ti, hti0, htiK, hie, hqi, _⟩ := backward_candidate_tap hK2 hNS0 hD0 hH hi.1 hi.2 hxi
  obtain ⟨tj, htj0, htjK, hje, hqj, _⟩ := backward_candidate_tap hK2 hNS0 hD0 hW hj.1 hj.2 hxj
  have ht := radix_bound hti0 htiK htj0 htjK
  refine ⟨rxi, rxj, ⟨ti, hti0, htiK, by omega, hqi⟩, ⟨tj, htj0, htjK, by omega, hqj⟩, ?_, ?_,
    ?_, ?_⟩
  · rw [hqi, hqj]; exact ht
  · rw [weightsIndex_eq hw hexW hb hh rxi rxj ⟨hti0, htiK⟩ ⟨htj0, htjK⟩ hqi hqj, hqi, hqj,
      flat_horner]
  · rw [outIndex_eq hv hexV hb hh rxi rxj hd, flat_horner]
  · rw [linearIndex_eq ho hexV hb hh hi hj hd, flat_horner]

/-- C9 (amended), at a concrete input: shape `[1, 1, 3, 3, .]`, `K = 3`, `D = 1`,
output position `(1, 2)`, element `d = 1`, candidate `(2, 1)`. -/
theorem inner_loop_index_safety_witness :
    backward_candidates 1 3 3 (Int.tdiv 3 2) 1 = [0, 1, 2] ∧
    weightsIndex example_weights 3 1 0 0 1 2 2 1
        (get_window_start 2 3 3 (Int.tdiv 3 2) 1) (get_window_start 1 3 3 (Int.tdiv 3 2) 1)
      = (((0 * 1 + 0) * 3 + 2) * 3 + 1) * (3 * 3)
        + (Int.tdiv (1 - get_window_start 2 3 3 (Int.tdiv 3 2) 1) 1 * 3
          + Int.tdiv (2 - get_window_start 1 3 3 (Int.tdiv 3 2) 1) 1) ∧
    outIndex example_values 0 0 1 2 1 = (((0 * 1 + 0) * 3 + 2) * 3 + 1) * 2 + 1 ∧
    linearIndex example_output 0 0 1 2 1 = (((0 * 1 + 0) * 3 + 1) * 3 + 2) * 2 + 1 :=
  ⟨by decide,
    (inner_loop_index_safety 3 1 3 3 1 2 1 example_weights example_values example_output
      (by decide) (by decide) (by decide) (by decide) (by decide) (by decide) (by decide)
      (by decide) (by decide) (by decide) 0 0 1 2 1 2 1 (by decide) (by decide) (by decide)
      (by decide) (by decide) (by decide) (by decide)).2.2.2.2.2⟩

/-- C9 as stated fails: values and output of shape `[3, 1, 1, 1, 2 ^ 30]`
(contiguous, `3 * 2 ^ 30` elements), weights of shape `[3, 1, 1, 1, 1]`,
`K = 1`, `D = 1`.  At batch `b = 2` the only candidate is `(0, 0)`, and the
`int` variables `outIndex` and `linearIndex` hold `-2 ^ 31` instead of the
position `2 ^ 31` of element `(2, 0, 0, 0, 0)`: an access before the buffer. -/
theorem index_safety_fails_on_huge_tensor :
    (0 : Int) < 1 ∧ (1 : Int) % 2 = 1 ∧ (1 : Int) * 1 ≤ 1 ∧
    huge_weights.IsContiguous 1 1 1 (1 * 1) ∧
    huge_values.IsContiguous 1 1 1 1073741824 ∧
    backward_candidates 0 1 1 (Int.tdiv 1 2) 1 = [0] ∧
    outIndex huge_values 2 0 0 0 0 = -2147483648 ∧
    linearIndex huge_values 2 0 0 0 0 = -2147483648 ∧
    ¬ (outIndex huge_values 2 0 0 0 0 = (((2 * 1 + 0) * 1 + 0) * 1 + 0) * 1073741824 + 0) ∧
    ¬ (0 ≤ outIndex huge_values 2 0 0 0 0) := by
  decide

/-! ## The binding layer: claims -/

theorem nat_sqrt_27 : Nat.sqrt 27 = 5 := by
  symm; rw [Nat.eq_sqrt]; decide

theorem int_sqrt_27 : int_sqrt 27 = 5 := by
  unfold int_sqrt
  rw [nat_sqrt_27]
  decide

theorem int_sqrt_9 : int_sqrt 9 = 3 := by
  unfold int_sqrt
  have : Nat.sqrt 9 = 3 := by symm; rw [Nat.eq_sqrt]; decide
  rw [this]; decide

theorem int_sqrt_10 : int_sqrt 10 = 3 := by
  unfold int_sqrt
  have : Nat.sqrt 10 = 3 := by symm; rw [Nat.eq_sqrt]; decide
  rw [this]; decide

theorem with_extents_length (t : Tensor) (a b c : Nat) :
    (t.with_extents a b c).sizes.length = t.sizes.length := by
  simp [Tensor.with_extents]

theorem with_extents_getD (t : Tensor) (a b c k : Nat) (h2 : k ≠ 2) (h3 : k ≠ 3) (h4 : k ≠ 4) :
    (t.with_extents a b c).sizes.getD k 0 = t.sizes.getD k 0 := by
  simp only [Tensor.with_extents, List.getD_eq_getElem?_getD]
  rw [List.getElem?_set_ne (Ne.symm h4), List.getElem?_set_ne (Ne.symm h3),
    List.getElem?_set_ne (Ne.symm h2)]

/-- C5 (code at the failing inputs). A supplied bias with a wrong span is
accepted by `natten3dqkrpb_forward` and the CPU kernel is called, with
assertions enabled: (1) kernel `3 x 3 x 3`, bias `[1, 5, 5, 7]` (width span 7
instead of 5); (2) kernel `5 x 3 x 3`, bias `[1, 5, 5, 5]` (depth span 5
instead of 9).  (3) The right bias `[1, 9, 5, 5]` for kernel `5 x 3 x 3` fails
the assertion, which compares the depth span with `kernel_size`. -/
theorem natten3dqkrpb_forward_bias_span_unchecked :
    natten3dqkrpb_forward ⟨false, false⟩ (cpu_tensor [1, 1, 3, 3, 3, 4])
        (cpu_tensor [1, 1, 3, 3, 3, 4]) (some (cpu_tensor [1, 5, 5, 7])) 3 3 1 1
      = .returned (.natten3dqkrpb_cpu_forward (cpu_tensor [1, 1, 3, 3, 3, 4])
          (cpu_tensor [1, 1, 3, 3, 3, 4]) (some (cpu_tensor [1, 5, 5, 7])) 3 3 1 1) ∧
    natten3dqkrpb_forward ⟨false, false⟩ (cpu_tensor [1, 1, 5, 3, 3, 4])
        (cpu_tensor [1, 1, 5, 3, 3, 4]) (some (cpu_tensor [1, 5, 5, 5])) 5 3 1 1
      = .returned (.natten3dqkrpb_cpu_forward (cpu_tensor [1, 1, 5, 3, 3, 4])
          (cpu_tensor [1, 1, 5, 3, 3, 4]) (some (cpu_tensor [1, 5, 5, 5])) 5 3 1 1) ∧
    natten3dqkrpb_forward ⟨false, false⟩ (cpu_tensor [1, 1, 5, 3, 3, 4])
        (cpu_tensor [1, 1, 5, 3, 3, 4]) (some (cpu_tensor [1, 9, 5, 5])) 5 3 1 1
      = .assertion_failed := by
  decide

/-- C10 (code at the failing input). Well-shaped 3D AV inputs with kernel
`3 x 3 x 3` (last axis of `attn` of size 27, contiguous CPU tensors) fail the
assertion `int(sqrt(attn.size(5))) == kernel_size`, since `int(sqrt(27))` is
5: with assertions enabled neither entry point reaches the CPU kernel. -/
theorem natten3dav_rejects_well_shaped_inputs :
    int_sqrt (3 * 3 * 3) = 5 ∧
    natten3dav_forward ⟨false, false⟩ (cpu_tensor [1, 1, 3, 3, 3, 27])
        (cpu_tensor [1, 1, 3, 3, 3, 4]) 3 3 1 1 = .assertion_failed ∧
    natten3dav_backward ⟨false, false⟩ (cpu_tensor [1, 1, 3, 3, 3, 4])
        (cpu_tensor [1, 1, 3, 3, 3, 27]) (cpu_tensor [1, 1, 3, 3, 3, 4]) 3 3 1 1
      = .assertion_failed := by
  refine ⟨int_sqrt_27, ?_, ?_⟩
  · simp [natten3dav_forward, cpu_tensor, int_sqrt_27]
  · simp [natten3dav_backward, cpu_tensor, int_sqrt_27]

/-- C6 as stated fails: with kernel size 3 on the height and width axes and
extents `2 x 2` there, each entry point hands contiguous CPU tensors to its
CPU kernel, in a build with assertions: the QK entry points with kernel
`3 x 3 x 3` on extents `2 x 2 x 2`, the AV entry points with kernel
`1 x 3 x 3` on extents `1 x 2 x 2` (last axis of `attn` of size 9). -/
theorem oversized_kernel_is_dispatched :
    natten3dqkrpb_forward ⟨false, false⟩ (cpu_tensor [1, 1, 2, 2, 2, 4])
        (cpu_tensor [1, 1, 2, 2, 2, 4]) none 3 3 1 1
      = .returned (.natten3dqkrpb_cpu_forward (cpu_tensor [1, 1, 2, 2, 2, 4])
          (cpu_tensor [1, 1, 2, 2, 2, 4]) none 3 3 1 1) ∧
    natten3dqkrpb_backward ⟨false, false⟩ (cpu_tensor [1, 1, 2, 2, 2, 27])
        (cpu_tensor [1, 1, 2, 2, 2, 4]) (cpu_tensor [1, 1, 2, 2, 2, 4]) false 3 3 1 1
      = .returned (.natten3dqkrpb_cpu_backward (cpu_tensor [1, 1, 2, 2, 2, 27])
          (cpu_tensor [1, 1, 2, 2, 2, 4]) (cpu_tensor [1, 1, 2, 2, 2, 4]) false 3 3 1 1) ∧
    natten3dav_forward ⟨false, false⟩ (cpu_tensor [1, 1, 1, 2, 2, 9])
        (cpu_tensor [1, 1, 1, 2, 2, 4]) 1 3 1 1
      = .returned (.natten3dav_cpu_forward (cpu_tensor [1, 1, 1, 2, 2, 9])
          (cpu_tensor [1, 1, 1, 2, 2, 4]) 1 3 1 1) ∧
    natten3dav_backward ⟨false, false⟩ (cpu_tensor [1, 1, 1, 2, 2, 4])
        (cpu_tensor [1, 1, 1, 2, 2, 9]) (cpu_tensor [1, 1, 1, 2, 2, 4]) 1 3 1 1
      = .returned (.natten3dav_cpu_backward (cpu_tensor [1, 1, 1, 2, 2, 4])
          (cpu_tensor [1, 1, 1, 2, 2, 9]) (cpu_tensor [1, 1, 1, 2, 2, 4]) 1 3 1 1) := by
  refine ⟨by decide, by decide, ?_, ?_⟩
  · simp [natten3dav_forward, cpu_tensor, int_sqrt_9]
  · simp [natten3dav_backward, cpu_tensor, int_sqrt_9]

theorem failure_returned (c : Call) : (Outcome.returned c).failure = none := rfl

theorem kernel_returned (c : Call) : (Outcome.returned c).kernel = some c.kernel := rfl

theorem av_forward_congr (bld : Build) (x x' y y' : Tensor) (kd k dd d : Int)
    (h1 : x'.is_contiguous = x.is_contiguous) (h2 : x'.is_cuda = x.is_cuda)
    (h3 : x'.sizes.length = x.sizes.length) (h4 : x'.sizes.getD 5 0 = x.sizes.getD 5 0)
    (h5 : y'.is_contiguous = y.is_contiguous) (h6 : y'.is_cuda = y.is_cuda)
    (h7 : y'.is_half = y.is_half) :
    (natten3dav_forward bld x' y' kd k dd d).failure
        = (natten3dav_forward bld x y kd k dd d).failure ∧
      (natten3dav_forward bld x' y' kd k dd d).kernel
        = (natten3dav_forward bld x y kd k dd d).kernel := by
  unfold natten3dav_forward
  rw [h1, h2, h3, h4, h5, h6, h7]
  constructor
  · simp only [apply_ite Outcome.failure, failure_returned]
  · simp only [apply_ite Outcome.kernel, kernel_returned, Call.kernel]

theorem av_backward_congr (bld : Build) (x x' y y' z z' : Tensor) (kd k dd d : Int)
    (h0 : x'.is_contiguous = x.is_contiguous) (h0' : x'.is_cuda = x.is_cuda)
    (h1 : y'.is_contiguous = y.is_contiguous) (h2 : y'.is_cuda = y.is_cuda)
    (h3 : y'.sizes.length = y.sizes.length) (h4 : y'.sizes.getD 5 0 = y.sizes.getD 5 0)
    (h5 : z'.is_contiguous = z.is_contiguous) (h6 : z'.is_cuda = z.is_cuda)
    (h7 : z'.is_half = z.is_half) :
    (natten3dav_backward bld x' y' z' kd k dd d).failure
        = (natten3dav_backward bld x y z kd k dd d).failure ∧
      (natten3dav_backward bld x' y' z' kd k dd d).kernel
        = (natten3dav_backward bld x y z kd k dd d).kernel := by
  unfold natten3dav_backward
  rw [h0, h0', h1, h2, h3, h4, h5, h6, h7]
  constructor
  · simp only [apply_ite Outcome.failure, failure_returned]
  · simp only [apply_ite Outcome.kernel, kernel_returned, Call.kernel]

theorem qkrpb_forward_congr (bld : Build) (x x' y y' : Tensor) (rpb : Option Tensor)
    (kd k dd d : Int)
    (h1 : x'.is_contiguous = x.is_contiguous) (h2 : x'.is_cuda = x.is_cuda)
    (h3 : x'.sizes.length = x.sizes.length) (h4 : x'.is_half = x.is_half)
    (h5 : y'.is_contiguous = y.is_contiguous) (h6 : y'.is_cuda = y.is_cuda) :
    (natten3dqkrpb_forward bld x' y' rpb kd k dd d).failure
        = (natten3dqkrpb_forward bld x y rpb kd k dd d).failure ∧
      (natten3dqkrpb_forward bld x' y' rpb kd k dd d).kernel
        = (natten3dqkrpb_forward bld x y rpb kd k dd d).kernel := by
  have hb : rpb_block bld y' rpb k = rpb_block bld y rpb k := by
    unfold rpb_block
    rw [h6]
  unfold natten3dqkrpb_forward
  rw [h1, h2, h3, h4, h5, h6, hb]
  constructor
  · cases rpb_block bld y rpb k <;> simp only [apply_ite Outcome.failure, failure_returned]
  · cases rpb_block bld y rpb k <;>
      simp only [apply_ite Outcome.kernel, kernel_returned, Call.kernel]

theorem qkrpb_backward_congr (bld : Build) (x x' y y' z z' : Tensor) (flag : Bool)
    (kd k dd d : Int)
    (h0 : x'.is_contiguous = x.is_contiguous) (h0' : x'.is_cuda = x.is_cuda)
    (h1 : y'.is_contiguous = y.is_contiguous) (h2 : y'.is_cuda = y.is_cuda)
    (h4 : y'.is_half = y.is_half)
    (h5 : z'.is_contiguous = z.is_contiguous) (h6 : z'.is_cuda = z.is_cuda) :
    (natten3dqkrpb_backward bld x' y' z' flag kd k dd d).failure
        = (natten3dqkrpb_backward bld x y z flag kd k dd d).failure ∧
      (natten3dqkrpb_backward bld x' y' z' flag kd k dd d).kernel
        = (natten3dqkrpb_backward bld x y z flag kd k dd d).kernel := by
  unfold natten3dqkrpb_backward
  rw [h0, h0', h1, h2, h4, h5, h6]
  constructor
  · simp only [apply_ite Outcome.failure, failure_returned]
  · simp only [apply_ite Outcome.kernel, kernel_returned, Call.kernel]

/-- C6 (amended). The entry points do not validate kernel size against
extent: for each of the four 3D entry points (tensor sizes below `2 ^ 52`),
replacing the spatial extents of the input tensors by any others (smaller
than the kernel sizes or not) changes neither the failure reported nor the
backend kernel that is called. -/
theorem extents_are_not_validated (bld : Build) (x y z : Tensor) (rpb : Option Tensor)
    (biasEnabled : Bool) (kernel_size_d kernel_size dilation_d dilation : Int)
    (a b c a' b' c' a'' b'' c'' : Nat)
    (_hx : ∀ n ∈ x.sizes, n < 4503599627370496) (_hy : ∀ n ∈ y.sizes, n < 4503599627370496)
    (_hz : ∀ n ∈ z.sizes, n < 4503599627370496) :
    ((natten3dav_forward bld (x.with_extents a b c) (y.with_extents a' b' c')
          kernel_size_d kernel_size dilation_d dilation).failure
        = (natten3dav_forward bld x y kernel_size_d kernel_size dilation_d dilation).failure ∧
      (natten3dav_forward bld (x.with_extents a b c) (y.with_extents a' b' c')
          kernel_size_d kernel_size dilation_d dilation).kernel
        = (natten3dav_forward bld x y kernel_size_d kernel_size dilation_d dilation).kernel) ∧
    ((natten3dav_backward bld (x.with_extents a b c) (y.with_extents a' b' c')
          (z.with_extents a'' b'' c'') kernel_size_d kernel_size dilation_d dilation).failure
        = (natten3dav_backward bld x y z kernel_size_d kernel_size dilation_d
            dilation).failure ∧
      (natten3dav_backward bld (x.with_extents a b c) (y.with_extents a' b' c')
          (z.with_extents a'' b'' c'') kernel_size_d kernel_size dilation_d dilation).kernel
        = (natten3dav_backward bld x y z kernel_size_d kernel_size dilation_d
            dilation).kernel) ∧
    ((natten3dqkrpb_forward bld (x.with_extents a b c) (y.with_extents a' b' c') rpb
          kernel_size_d kernel_size dilation_d dilation).failure
        = (natten3dqkrpb_forward bld x y rpb kernel_size_d kernel_size dilation_d
            dilation).failure ∧
      (natten3dqkrpb_forward bld (x.with_extents a b c) (y.with_extents a' b' c') rpb
          kernel_size_d kernel_size dilation_d dilation).kernel
        = (natten3dqkrpb_forward bld x y rpb kernel_size_d kernel_size dilation_d
            dilation).kernel) ∧
    ((natten3dqkrpb_backward bld (x.with_extents a b c) (y.with_extents a' b' c')
          (z.with_extents a'' b'' c'') biasEnabled kernel_size_d kernel_size dilation_d
          dilation).failure
        = (natten3dqkrpb_backward bld x y z biasEnabled kernel_size_d kernel_size dilation_d
            dilation).failure ∧
      (natten3dqkrpb_backward bld (x.with_extents a b c) (y.with_extents a' b' c')
          (z.with_extents a'' b'' c'') biasEnabled kernel_size_d kernel_size dilation_d
          dilation).kernel
        = (natten3dqkrpb_backward bld x y z biasEnabled kernel_size_d kernel_size dilation_d
            dilation).kernel) := by
  have g5 : ∀ (t : Tensor) (a b c : Nat),
      (t.with_extents a b c).sizes.getD 5 0 = t.sizes.getD 5 0 :=
    fun t a b c => with_extents_getD t a b c 5 (by decide) (by decide) (by decide)
  exact ⟨av_forward_congr bld _ _ _ _ _ _ _ _ rfl rfl (with_extents_length _ _ _ _)
      (g5 _ _ _ _) rfl rfl rfl,
    av_backward_congr bld _ _ _ _ _ _ _ _ _ _ rfl rfl rfl rfl
      (with_extents_length _ _ _ _) (g5 _ _ _ _) rfl rfl rfl,
    qkrpb_forward_congr bld _ _ _ _ rpb _ _ _ _ rfl rfl (with_extents_length _ _ _ _)
      rfl rfl rfl,
    qkrpb_backward_congr bld _ _ _ _ _ _ _ _ _ _ _ rfl rfl rfl rfl rfl rfl rfl⟩

/-- C6 (amended), at a concrete input: shrinking the extents `3 x 3 x 3` of
contiguous CPU tensors to `1 x 2 x 2`, below the kernel size 3, leaves the
call of `natten3dqkrpb_forward` without failure and on the CPU kernel. -/
theorem extents_are_not_validated_witness :
    ((cpu_tensor [1, 1, 3, 3, 3, 4]).with_extents 1 2 2 = cpu_tensor [1, 1, 1, 2, 2, 4]) ∧
    (natten3dqkrpb_forward ⟨false, false⟩ ((cpu_tensor [1, 1, 3, 3, 3, 4]).with_extents 1 2 2)
        ((cpu_tensor [1, 1, 3, 3, 3, 4]).with_extents 1 2 2) none 3 3 1 1).failure = none ∧
    (natten3dqkrpb_forward ⟨false, false⟩ ((cpu_tensor [1, 1, 3, 3, 3, 4]).with_extents 1 2 2)
        ((cpu_tensor [1, 1, 3, 3, 3, 4]).with_extents 1 2 2) none 3 3 1 1).kernel
      = some "natten3dqkrpb_cpu_forward" :=
  ⟨by decide,
    ((extents_are_not_validated ⟨false, false⟩ (cpu_tensor [1, 1, 3, 3, 3, 4])
      (cpu_tensor [1, 1, 3, 3, 3, 4]) (cpu_tensor [1, 1, 3, 3, 3, 4]) none false 3 3 1 1
      1 2 2 1 2 2 1 2 2 (by decide) (by decide) (by decide)).2.2.1.1).trans (by decide),
    ((extents_are_not_validated ⟨false, false⟩ (cpu_tensor [1, 1, 3, 3, 3, 4])
      (cpu_tensor [1, 1, 3, 3, 3, 4]) (cpu_tensor [1, 1, 3, 3, 3, 4]) none false 3 3 1 1
      1 2 2 1 2 2 1 2 2 (by decide) (by decide) (by decide)).2.2.1.2).trans (by decide)⟩

/-- C7 as stated fails for a supplied bias: a non-contiguous bias on another
device than the key trips the device assertion first (build with
assertions), and with a one-dimensional query the lookup `query.size(1)`
throws first (any build); neither failure is the contiguity error. -/
theorem noncontiguous_bias_other_failure_first :
    (strided_cuda_tensor [1, 5, 5, 5]).is_contiguous = false ∧
    natten3dqkrpb_forward ⟨false, false⟩ (cpu_tensor [1, 1, 3, 3, 3, 4])
        (cpu_tensor [1, 1, 3, 3, 3, 4]) (some (strided_cuda_tensor [1, 5, 5, 5])) 3 3 1 1
      = .assertion_failed ∧
    (strided_cpu_tensor [1, 5, 5, 5]).is_contiguous = false ∧
    natten3dqkrpb_forward ⟨false, true⟩ (cpu_tensor [4]) (cpu_tensor [4])
        (some (strided_cpu_tensor [1, 5, 5, 5])) 3 3 1 1
      = .index_out_of_range := by
  decide

/-- C7 (amended). Fail-fast on layout violations: for each of the four 3D
entry points, in every build and for every combination of the other
arguments, a non-contiguous tensor argument (a supplied bias included) means
that no backend kernel is called.  The call fails with the `must be
contiguous` error of the first non-contiguous tensor among `d_out`/`d_attn`,
`attn`/`query`, `value`/`key`, in this order.  With contiguous `query` and
`key` and a non-contiguous bias, the call fails with `query.size(1)` out of
range when `query` has fewer than two dimensions; otherwise, in a build with
assertions, with an assertion failure when `query` and `key` or the bias and
`key` are on different devices; otherwise with the `rpb.value() must be
contiguous` error. -/
theorem noncontiguous_input_is_rejected (bld : Build) (x y z : Tensor) (rpb : Option Tensor)
    (biasEnabled : Bool) (kernel_size_d kernel_size dilation_d dilation : Int) :
    -- natten3dav_forward (attn = x, value = y)
    (x.is_contiguous = false →
      natten3dav_forward bld x y kernel_size_d kernel_size dilation_d dilation
        = .torch_check_failed "attn must be contiguous") ∧
    (x.is_contiguous = true → y.is_contiguous = false →
      natten3dav_forward bld x y kernel_size_d kernel_size dilation_d dilation
        = .torch_check_failed "value must be contiguous") ∧
    -- natten3dav_backward (d_out = x, attn = y, value = z)
    (x.is_contiguous = false →
      natten3dav_backward bld x y z kernel_size_d kernel_size dilation_d dilation
        = .torch_check_failed "d_out must be contiguous") ∧
    (x.is_contiguous = true → y.is_contiguous = false →
      natten3dav_backward bld x y z kernel_size_d kernel_size dilation_d dilation
        = .torch_check_failed "attn must be contiguous") ∧
    (x.is_contiguous = true → y.is_contiguous = true → z.is_contiguous = false →
      natten3dav_backward bld x y z kernel_size_d kernel_size dilation_d dilation
        = .torch_check_failed "value must be contiguous") ∧
    -- natten3dqkrpb_backward (d_attn = x, query = y, key = z)
    (x.is_contiguous = false →
      natten3dqkrpb_backward bld x y z biasEnabled kernel_size_d kernel_size dilation_d dilation
        = .torch_check_failed "d_attn must be contiguous") ∧
    (x.is_contiguous = true → y.is_contiguous = false →
      natten3dqkrpb_backward bld x y z biasEnabled kernel_size_d kernel_size dilation_d dilation
        = .torch_check_failed "query must be contiguous") ∧
    (x.is_contiguous = true → y.is_contiguous = true → z.is_contiguous = false →
      natten3dqkrpb_backward bld x y z biasEnabled kernel_size_d kernel_size dilation_d dilation
        = .torch_check_failed "key must be contiguous") ∧
    -- natten3dqkrpb_forward (query = x, key = y), with or without a bias
    (x.is_contiguous = false →
      natten3dqkrpb_forward bld x y rpb kernel_size_d kernel_size dilation_d dilation
        = .torch_check_failed "query must be contiguous") ∧
    (x.is_contiguous = true → y.is_contiguous = false →
      natten3dqkrpb_forward bld x y rpb kernel_size_d kernel_size dilation_d dilation
        = .torch_check_failed "key must be contiguous") ∧
    -- natten3dqkrpb_forward (query = x, key = y) with the bias z
    (z.is_contiguous = false →
      (natten3dqkrpb_forward bld x y (some z) kernel_size_d kernel_size dilation_d
        dilation).dispatches = false) ∧
    (x.is_contiguous = true → y.is_contiguous = true → z.is_contiguous = false →
      x.sizes.length ≤ 1 →
      natten3dqkrpb_forward bld x y (some z) kernel_size_d kernel_size dilation_d dilation
        = .index_out_of_range) ∧
    (x.is_contiguous = true → y.is_contiguous = true → z.is_contiguous = false →
      1 < x.sizes.length → bld.ndebug = false →
      (x.is_cuda ≠ y.is_cuda ∨ z.is_cuda ≠ y.is_cuda) →
      natten3dqkrpb_forward bld x y (some z) kernel_size_d kernel_size dilation_d dilation
        = .assertion_failed) ∧
    (x.is_contiguous = true → y.is_contiguous = true → z.is_contiguous = false →
      1 < x.sizes.length →
      (bld.ndebug = true ∨ (x.is_cuda = y.is_cuda ∧ z.is_cuda = y.is_cuda)) →
      natten3dqkrpb_forward bld x y (some z) kernel_size_d kernel_size dilation_d dilation
        = .torch_check_failed "rpb.value() must be contiguous") := by
  refine ⟨?_, ?_, ?_, ?_, ?_, ?_, ?_, ?_, ?_, ?_, ?_, ?_, ?_, ?_⟩
  · intro hx
    simp [natten3dav_forward, hx]
  · intro hx hy
    simp [natten3dav_forward, hx, hy]
  · intro hx
    simp [natten3dav_backward, hx]
  · intro hx hy
    simp [natten3dav_backward, hx, hy]
  · intro hx hy hz
    simp [natten3dav_backward, hx, hy, hz]
  · intro hx
    simp [natten3dqkrpb_backward, hx]
  · intro hx hy
    simp [natten3dqkrpb_backward, hx, hy]
  · intro hx hy hz
    simp [natten3dqkrpb_backward, hx, hy, hz]
  · intro hx
    simp [natten3dqkrpb_forward, hx]
  · intro hx hy
    simp [natten3dqkrpb_forward, hx, hy]
  · intro hz
    unfold natten3dqkrpb_forward rpb_block
    simp only [hz]
    split_ifs <;> first | rfl | simp_all
  · intro hx hy _ hlen
    simp [natten3dqkrpb_forward, hx, hy, hlen]
  · intro hx hy hz hlen hnd hdev
    have hlen' : ¬ x.sizes.length ≤ 1 := by omega
    unfold natten3dqkrpb_forward rpb_block
    by_cases h1 : x.is_cuda = y.is_cuda
    · have h2 : z.is_cuda ≠ y.is_cuda := by
        rcases hdev with h | h
        · exact absurd h1 h
        · exact h
      simp [hx, hy, hlen', hnd, h1, h2]
    · simp [hx, hy, hlen', hnd, h1]
  · intro hx hy hz hlen hdev
    unfold natten3dqkrpb_forward rpb_block
    have hlen' : ¬ x.sizes.length ≤ 1 := by omega
    rcases hdev with hnd | ⟨h1, h2⟩
    · simp [hz, hx, hy, hlen', hnd]
    · simp [hz, hx, hy, hlen', h1, h2]

/-- C7 (amended), at concrete inputs: a non-contiguous `value` next to a
contiguous `attn`, and a non-contiguous bias next to contiguous CPU `query`
and `key`. -/
theorem noncontiguous_input_is_rejected_witness :
    natten3dav_forward ⟨true, false⟩ (cuda_tensor [1, 1, 3, 3, 3, 27])
        (strided_cuda_tensor [1, 1, 3, 3, 3, 4]) 3 3 1 1
      = .torch_check_failed "value must be contiguous" ∧
    natten3dqkrpb_forward ⟨true, false⟩ (cpu_tensor [1, 1, 3, 3, 3, 4])
        (cpu_tensor [1, 1, 3, 3, 3, 4]) (some (strided_cpu_tensor [1, 5, 5, 5])) 3 3 1 1
      = .torch_check_failed "rpb.value() must be contiguous" :=
  ⟨(noncontiguous_input_is_rejected ⟨true, false⟩ (cuda_tensor [1, 1, 3, 3, 3, 27])
      (strided_cuda_tensor [1, 1, 3, 3, 3, 4]) (cpu_tensor []) none false 3 3 1 1).2.1
      rfl rfl,
    (noncontiguous_input_is_rejected ⟨true, false⟩ (cpu_tensor [1, 1, 3, 3, 3, 4])
      (cpu_tensor [1, 1, 3, 3, 3, 4]) (strided_cpu_tensor [1, 5, 5, 5]) none false 3 3 1
      1).2.2.2.2.2.2.2.2.2.2.2.2.2 rfl rfl rfl (by decide) (Or.inr ⟨rfl, rfl⟩)⟩

/-- C8 as stated fails: in a build without CUDA and with assertions, contiguous
accelerator tensors whose asserted span check fails end in the assertion
failure, not in the `not compiled with CUDA` error: a bias of depth span 4
with kernel size 3, and an `attn` with last axis 10 with kernel size 5. -/
theorem cuda_request_assertion_first :
    natten3dqkrpb_forward ⟨false, false⟩ (cuda_tensor [1, 1, 3, 3, 3, 4])
        (cuda_tensor [1, 1, 3, 3, 3, 4]) (some (cuda_tensor [1, 4, 4, 4])) 3 3 1 1
      = .assertion_failed ∧
    natten3dav_forward ⟨false, false⟩ (cuda_tensor [1, 1, 5, 5, 5, 10])
        (cuda_tensor [1, 1, 5, 5, 5, 4]) 5 5 1 1
      = .assertion_failed := by
  refine ⟨by decide, ?_⟩
  simp [natten3dav_forward, cuda_tensor, int_sqrt_10]

theorem av_forward_without_cuda (bld : Build) (hb : bld.with_cuda = false) (x y : Tensor)
    (kernel_size_d kernel_size dilation_d dilation : Int) :
    (x.is_cuda = true →
      (natten3dav_forward bld x y kernel_size_d kernel_size dilation_d
        dilation).dispatches = false) ∧
    (x.is_contiguous = true → y.is_contiguous = true → x.is_cuda = true → y.is_cuda = true →
      (bld.ndebug = true ∨ (5 < x.sizes.length ∧ int_sqrt (x.sizes.getD 5 0) = kernel_size)) →
      natten3dav_forward bld x y kernel_size_d kernel_size dilation_d dilation
        = .at_error not_compiled_with_cuda) ∧
    (x.is_contiguous = true → y.is_contiguous = true → x.is_cuda = false → y.is_cuda = false →
      (bld.ndebug = true ∨ (5 < x.sizes.length ∧ int_sqrt (x.sizes.getD 5 0) = kernel_size)) →
      natten3dav_forward bld x y kernel_size_d kernel_size dilation_d dilation
        = .returned (.natten3dav_cpu_forward x y kernel_size_d kernel_size dilation_d
            dilation)) := by
  refine ⟨?_, ?_, ?_⟩
  · intro hx
    unfold natten3dav_forward
    simp only [hb, hx]
    split_ifs <;> first | rfl | simp_all
  · intro h1 h2 h3 h4 h5
    unfold natten3dav_forward
    rcases h5 with h5 | ⟨h5, h6⟩
    · simp [hb, h1, h2, h3, h4, h5]
    · have h5' : ¬ x.sizes.length ≤ 5 := by omega
      simp only [List.getD_eq_getElem?_getD] at h6
      simp [hb, h1, h2, h3, h4, h5', h6]
  · intro h1 h2 h3 h4 h5
    unfold natten3dav_forward
    rcases h5 with h5 | ⟨h5, h6⟩
    · simp [h1, h2, h3, h4, h5]
    · have h5' : ¬ x.sizes.length ≤ 5 := by omega
      simp only [List.getD_eq_getElem?_getD] at h6
      simp [h1, h2, h3, h4, h5', h6]

theorem av_backward_without_cuda (bld : Build) (hb : bld.with_cuda = false) (x y z : Tensor)
    (kernel_size_d kernel_size dilation_d dilation : Int) :
    (y.is_cuda = true →
      (natten3dav_backward bld x y z kernel_size_d kernel_size dilation_d
        dilation).dispatches = false) ∧
    (x.is_contiguous = true → y.is_contiguous = true → z.is_contiguous = true →
      x.is_cuda = true → y.is_cuda = true → z.is_cuda = true →
      (bld.ndebug = true ∨ (5 < y.sizes.length ∧ int_sqrt (y.sizes.getD 5 0) = kernel_size)) →
      natten3dav_backward bld x y z kernel_size_d kernel_size dilation_d dilation
        = .at_error not_compiled_with_cuda) ∧
    (x.is_contiguous = true → y.is_contiguous = true → z.is_contiguous = true →
      x.is_cuda = false → y.is_cuda = false → z.is_cuda = false →
      (bld.ndebug = true ∨ (5 < y.sizes.length ∧ int_sqrt (y.sizes.getD 5 0) = kernel_size)) →
      natten3dav_backward bld x y z kernel_size_d kernel_size dilation_d dilation
        = .returned (.natten3dav_cpu_backward x y z kernel_size_d kernel_size dilation_d
            dilation)) := by
  refine ⟨?_, ?_, ?_⟩
  · intro hy
    unfold natten3dav_backward
    simp only [hb, hy]
    split_ifs <;> first | rfl | simp_all
  · intro h1 h2 h3 h4 h5 h6 h7
    unfold natten3dav_backward
    rcases h7 with h7 | ⟨h7, h8⟩
    · simp [hb, h1, h2, h3, h4, h5, h6, h7]
    · have h7' : ¬ y.sizes.length ≤ 5 := by omega
      simp only [List.getD_eq_getElem?_getD] at h8
      simp [hb, h1, h2, h3, h4, h5, h6, h7', h8]
  · intro h1 h2 h3 h4 h5 h6 h7
    unfold natten3dav_backward
    rcases h7 with h7 | ⟨h7, h8⟩
    · simp [h1, h2, h3, h4, h5, h6, h7]
    · have h7' : ¬ y.sizes.length ≤ 5 := by omega
      simp only [List.getD_eq_getElem?_getD] at h8
      simp [h1, h2, h3, h4, h5, h6, h7', h8]

theorem qkrpb_forward_nobias_without_cuda (bld : Build) (hb : bld.with_cuda = false)
    (x y : Tensor) (kernel_size_d kernel_size dilation_d dilation : Int) :
    (x.is_cuda = true →
      (natten3dqkrpb_forward bld x y none kernel_size_d kernel_size dilation_d
        dilation).dispatches = false) ∧
    (x.is_contiguous = true → y.is_contiguous = true → x.is_cuda = true → y.is_cuda = true →
      1 < x.sizes.length →
      natten3dqkrpb_forward bld x y none kernel_size_d kernel_size dilation_d dilation
        = .at_error not_compiled_with_cuda) ∧
    (x.is_contiguous = true → y.is_contiguous = true → x.is_cuda = false → y.is_cuda = false →
      1 < x.sizes.length →
      natten3dqkrpb_forward bld x y none kernel_size_d kernel_size dilation_d dilation
        = .returned (.natten3dqkrpb_cpu_forward x y none kernel_size_d kernel_size dilation_d
            dilation)) := by
  refine ⟨?_, ?_, ?_⟩
  · intro hx
    unfold natten3dqkrpb_forward rpb_block
    simp only [hb, hx]
    split_ifs <;> first | rfl | simp_all
  · intro h1 h2 h3 h4 h5
    have h5' : ¬ x.sizes.length ≤ 1 := by omega
    simp [natten3dqkrpb_forward, rpb_block, hb, h1, h2, h3, h4, h5']
  · intro h1 h2 h3 h4 h5
    have h5' : ¬ x.sizes.length ≤ 1 := by omega
    simp [natten3dqkrpb_forward, rpb_block, h1, h2, h3, h4, h5']

theorem qkrpb_forward_bias_without_cuda (bld : Build) (hb : bld.with_cuda = false)
    (x y z : Tensor) (kernel_size_d kernel_size dilation_d dilation : Int) :
    (x.is_cuda = true →
      (natten3dqkrpb_forward bld x y (some z) kernel_size_d kernel_size dilation_d
        dilation).dispatches = false) ∧
    (x.is_contiguous = true → y.is_contiguous = true → z.is_contiguous = true →
      x.is_cuda = true → y.is_cuda = true → z.is_cuda = true → 1 < x.sizes.length →
      (bld.ndebug = true ∨
        (1 < z.sizes.length ∧ rpb_kernel_size z = kernel_size)) →
      natten3dqkrpb_forward bld x y (some z) kernel_size_d kernel_size dilation_d dilation
        = .at_error not_compiled_with_cuda) ∧
    (x.is_contiguous = true → y.is_contiguous = true → z.is_contiguous = true →
      x.is_cuda = false → y.is_cuda = false → z.is_cuda = false → 1 < x.sizes.length →
      (bld.ndebug = true ∨
        (1 < z.sizes.length ∧ rpb_kernel_size z = kernel_size)) →
      natten3dqkrpb_forward bld x y (some z) kernel_size_d kernel_size dilation_d dilation
        = .returned (.natten3dqkrpb_cpu_forward x y (some z) kernel_size_d kernel_size
            dilation_d dilation)) := by
  refine ⟨?_, ?_, ?_⟩
  · intro hx
    unfold natten3dqkrpb_forward rpb_block
    simp only [hb, hx]
    split_ifs <;> first | rfl | simp_all
  · intro h1 h2 h3 h4 h5 h6 h7 h8
    have h7' : ¬ x.sizes.length ≤ 1 := by omega
    rcases h8 with h8 | ⟨h8, h9⟩
    · simp [natten3dqkrpb_forward, rpb_block, hb, h1, h2, h3, h4, h5, h6, h7', h8]
    · have h8' : ¬ z.sizes.length ≤ 1 := by omega
      simp [natten3dqkrpb_forward, rpb_block, hb, h1, h2, h3, h4, h5, h6, h7', h8', h9]
  · intro h1 h2 h3 h4 h5 h6 h7 h8
    have h7' : ¬ x.sizes.length ≤ 1 := by omega
    rcases h8 with h8 | ⟨h8, h9⟩
    · simp [natten3dqkrpb_forward, rpb_block, h1, h2, h3, h4, h5, h6, h7', h8]
    · have h8' : ¬ z.sizes.length ≤ 1 := by omega
      simp [natten3dqkrpb_forward, rpb_block, h1, h2, h3, h4, h5, h6, h7', h8', h9]

theorem qkrpb_backward_without_cuda (bld : Build) (hb : bld.with_cuda = false)
    (x y z : Tensor) (biasEnabled : Bool)
    (kernel_size_d kernel_size dilation_d dilation : Int) :
    (y.is_cuda = true →
      (natten3dqkrpb_backward bld x y z biasEnabled kernel_size_d kernel_size dilation_d
        dilation).dispatches = false) ∧
    (x.is_contiguous = true → y.is_contiguous = true → z.is_contiguous = true →
      x.is_cuda = true → y.is_cuda = true → z.is_cuda = true →
      natten3dqkrpb_backward bld x y z biasEnabled kernel_size_d kernel_size dilation_d dilation
        = .at_error not_compiled_with_cuda) ∧
    (x.is_contiguous = true → y.is_contiguous = true → z.is_contiguous = true →
      x.is_cuda = false → y.is_cuda = false → z.is_cuda = false →
      natten3dqkrpb_backward bld x y z biasEnabled kernel_size_d kernel_size dilation_d dilation
        = .returned (.natten3dqkrpb_cpu_backward x y z biasEnabled kernel_size_d kernel_size
            dilation_d dilation)) := by
  refine ⟨?_, ?_, ?_⟩
  · intro hy
    unfold natten3dqkrpb_backward
    simp only [hb, hy]
    split_ifs <;> first | rfl | simp_all
  · intro h1 h2 h3 h4 h5 h6
    simp [natten3dqkrpb_backward, hb, h1, h2, h3, h4, h5, h6]
  · intro h1 h2 h3 h4 h5 h6
    simp [natten3dqkrpb_backward, h1, h2, h3, h4, h5, h6]

/-- C8 (amended). In a build without CUDA support, for tensors whose sizes
are below `2 ^ 52`: (1) a call whose first dispatch tensor (`attn`, `query`)
is on the accelerator never reaches a backend kernel, the CPU kernel
included; (2) with contiguous accelerator tensors that pass the steps before
the device test (size lookups in range and, unless assertions are compiled
out, the asserted span checks) the call fails with the `NATTEN is not
compiled with CUDA` error; (3) with contiguous CPU tensors that pass those
steps the result is that of the corresponding `*_cpu_forward` /
`*_cpu_backward` function on the same arguments in the same order. -/
theorem without_cuda_build (bld : Build) (hb : bld.with_cuda = false) (x y z : Tensor)
    (biasEnabled : Bool) (kernel_size_d kernel_size dilation_d dilation : Int)
    (_hx : ∀ n ∈ x.sizes, n < 4503599627370496) (_hy : ∀ n ∈ y.sizes, n < 4503599627370496)
    (_hz : ∀ n ∈ z.sizes, n < 4503599627370496) :
    -- natten3dav_forward (attn = x, value = y)
    (x.is_cuda = true →
      (natten3dav_forward bld x y kernel_size_d kernel_size dilation_d
        dilation).dispatches = false) ∧
    (x.is_contiguous = true → y.is_contiguous = true → x.is_cuda = true → y.is_cuda = true →
      (bld.ndebug = true ∨ (5 < x.sizes.length ∧ int_sqrt (x.sizes.getD 5 0) = kernel_size)) →
      natten3dav_forward bld x y kernel_size_d kernel_size dilation_d dilation
        = .at_error not_compiled_with_cuda) ∧
    (x.is_contiguous = true → y.is_contiguous = true → x.is_cuda = false → y.is_cuda = false →
      (bld.ndebug = true ∨ (5 < x.sizes.length ∧ int_sqrt (x.sizes.getD 5 0) = kernel_size)) →
      natten3dav_forward bld x y kernel_size_d kernel_size dilation_d dilation
        = .returned (.natten3dav_cpu_forward x y kernel_size_d kernel_size dilation_d
            dilation)) ∧
    -- natten3dav_backward (d_out = x, attn = y, value = z)
    (y.is_cuda = true →
      (natten3dav_backward bld x y z kernel_size_d kernel_size dilation_d
        dilation).dispatches = false) ∧
    (x.is_contiguous = true → y.is_contiguous = true → z.is_contiguous = true →
      x.is_cuda = true → y.is_cuda = true → z.is_cuda = true →
      (bld.ndebug = true ∨ (5 < y.sizes.length ∧ int_sqrt (y.sizes.getD 5 0) = kernel_size)) →
      natten3dav_backward bld x y z kernel_size_d kernel_size dilation_d dilation
        = .at_error not_compiled_with_cuda) ∧
    (x.is_contiguous = true → y.is_contiguous = true → z.is_contiguous = true →
      x.is_cuda = false → y.is_cuda = false → z.is_cuda = false →
      (bld.ndebug = true ∨ (5 < y.sizes.length ∧ int_sqrt (y.sizes.getD 5 0) = kernel_size)) →
      natten3dav_backward bld x y z kernel_size_d kernel_size dilation_d dilation
        = .returned (.natten3dav_cpu_backward x y z kernel_size_d kernel_size dilation_d
            dilation)) ∧
    -- natten3dqkrpb_forward without bias (query = x, key = y)
    (x.is_cuda = true →
      (natten3dqkrpb_forward bld x y none kernel_size_d kernel_size dilation_d
        dilation).dispatches = false) ∧
    (x.is_contiguous = true → y.is_contiguous = true → x.is_cuda = true → y.is_cuda = true →
      1 < x.sizes.length →
      natten3dqkrpb_forward bld x y none kernel_size_d kernel_size dilation_d dilation
        = .at_error not_compiled_with_cuda) ∧
    (x.is_contiguous = true → y.is_contiguous = true → x.is_cuda = false → y.is_cuda = false →
      1 < x.sizes.length →
      natten3dqkrpb_forward bld x y none kernel_size_d kernel_size dilation_d dilation
        = .returned (.natten3dqkrpb_cpu_forward x y none kernel_size_d kernel_size dilation_d
            dilation)) ∧
    -- natten3dqkrpb_forward with bias (query = x, key = y, rpb = z)
    (x.is_cuda = true →
      (natten3dqkrpb_forward bld x y (some z) kernel_size_d kernel_size dilation_d
        dilation).dispatches = false) ∧
    (x.is_contiguous = true → y.is_contiguous = true → z.is_contiguous = true →
      x.is_cuda = true → y.is_cuda = true → z.is_cuda = true → 1 < x.sizes.length →
      (bld.ndebug = true ∨
        (1 < z.sizes.length ∧ rpb_kernel_size z = kernel_size)) →
      natten3dqkrpb_forward bld x y (some z) kernel_size_d kernel_size dilation_d dilation
        = .at_error not_compiled_with_cuda) ∧
    (x.is_contiguous = true → y.is_contiguous = true → z.is_contiguous = true →
      x.is_cuda = false → y.is_cuda = false → z.is_cuda = false → 1 < x.sizes.length →
      (bld.ndebug = true ∨
        (1 < z.sizes.length ∧ rpb_kernel_size z = kernel_size)) →
      natten3dqkrpb_forward bld x y (some z) kernel_size_d kernel_size dilation_d dilation
        = .returned (.natten3dqkrpb_cpu_forward x y (some z) kernel_size_d kernel_size
            dilation_d dilation)) ∧
    -- natten3dqkrpb_backward (d_attn = x, query = y, key = z)
    (y.is_cuda = true →
      (natten3dqkrpb_backward bld x y z biasEnabled kernel_size_d kernel_size dilation_d
        dilation).dispatches = false) ∧
    (x.is_contiguous = true → y.is_contiguous = true → z.is_contiguous = true →
      x.is_cuda = true → y.is_cuda = true → z.is_cuda = true →
      natten3dqkrpb_backward bld x y z biasEnabled kernel_size_d kernel_size dilation_d dilation
        = .at_error not_compiled_with_cuda) ∧
    (x.is_contiguous = true → y.is_contiguous = true → z.is_contiguous = true →
      x.is_cuda = false → y.is_cuda = false → z.is_cuda = false →
      natten3dqkrpb_backward bld x y z biasEnabled kernel_size_d kernel_size dilation_d dilation
        = .returned (.natten3dqkrpb_cpu_backward x y z biasEnabled kernel_size_d kernel_size
            dilation_d dilation)) :=
  ⟨(av_forward_without_cuda bld hb x y _ _ _ _).1,
    (av_forward_without_cuda bld hb x y _ _ _ _).2.1,
    (av_forward_without_cuda bld hb x y _ _ _ _).2.2,
    (av_backward_without_cuda bld hb x y z _ _ _ _).1,
    (av_backward_without_cuda bld hb x y z _ _ _ _).2.1,
    (av_backward_without_cuda bld hb x y z _ _ _ _).2.2,
    (qkrpb_forward_nobias_without_cuda bld hb x y _ _ _ _).1,
    (qkrpb_forward_nobias_without_cuda bld hb x y _ _ _ _).2.1,
    (qkrpb_forward_nobias_without_cuda bld hb x y _ _ _ _).2.2,
    (qkrpb_forward_bias_without_cuda bld hb x y z _ _ _ _).1,
    (qkrpb_forward_bias_without_cuda bld hb x y z _ _ _ _).2.1,
    (qkrpb_forward_bias_without_cuda bld hb x y z _ _ _ _).2.2,
    (qkrpb_backward_without_cuda bld hb x y z biasEnabled _ _ _ _).1,
    (qkrpb_backward_without_cuda bld hb x y z biasEnabled _ _ _ _).2.1,
    (qkrpb_backward_without_cuda bld hb x y z biasEnabled _ _ _ _).2.2⟩

/-- C8 (amended), at concrete inputs in a build without CUDA and with
assertions: accelerator tensors given to `natten3dqkrpb_backward` end in the
`not compiled with CUDA` error, and CPU tensors given to `natten3dav_forward`
with kernel `1 x 3 x 3` are handed to `natten3dav_cpu_forward`. -/
theorem without_cuda_build_witness :
    natten3dqkrpb_backward ⟨false, false⟩ (cuda_tensor [1, 1, 3, 3, 3, 27])
        (cuda_tensor [1, 1, 3, 3, 3, 4]) (cuda_tensor [1, 1, 3, 3, 3, 4]) true 3 3 1 1
      = .at_error not_compiled_with_cuda ∧
    natten3dav_forward ⟨false, false⟩ (cpu_tensor [1, 1, 3, 3, 3, 9])
        (cpu_tensor [1, 1, 3, 3, 3, 4]) 1 3 1 1
      = .returned (.natten3dav_cpu_forward (cpu_tensor [1, 1, 3, 3, 3, 9])
          (cpu_tensor [1, 1, 3, 3, 3, 4]) 1 3 1 1) :=
  ⟨(without_cuda_build ⟨false, false⟩ rfl (cuda_tensor [1, 1, 3, 3, 3, 27])
      (cuda_tensor [1, 1, 3, 3, 3, 4]) (cuda_tensor [1, 1, 3, 3, 3, 4]) true 3 3 1
      1 (by decide) (by decide) (by decide)).2.2.2.2.2.2.2.2.2.2.2.2.2.1
      rfl rfl rfl rfl rfl rfl,
    (without_cuda_build ⟨false, false⟩ rfl (cpu_tensor [1, 1, 3, 3, 3, 9])
      (cpu_tensor [1, 1, 3, 3, 3, 4]) (cpu_tensor []) true 1 3 1 1
      (by decide) (by decide) (by decide)).2.2.1 rfl rfl rfl rfl
      (Or.inr ⟨by decide, int_sqrt_9⟩)⟩

end natten
